import Mathlib

/-!
Trace propagation and telemetry core of the Pulsar / OpenTelemetry example.

A shallow embedding of `app/main.go`: the `propagationMapCarrier`, the
`injectTraceContext` / `extractTraceContext` wrappers, `parseHeaders`, the
metric recording helpers and the produce / consume / sampler loops.
-/

namespace PulsarOtel

/-! ## Go maps of type `map[string]string` -/

/-- The allocated part of a Go `map[string]string`: a finite mapping with unique,
case-sensitive keys. -/
abbrev StrMap := AList (fun _ : String => String)

/-- A Go value of type `map[string]string`. `nil` is the nil map: it reads as the
empty map, and an assignment to one of its entries is a run-time panic. -/
inductive GoMap where
  | nil : GoMap
  | mk : StrMap → GoMap
  deriving DecidableEq

namespace GoMap

/-- The two-valued index expression `v, ok := m[key]`. -/
def lookup (key : String) : GoMap → Option String
  | nil => none
  | mk a => a.lookup key

/-- The index expression `m[key]`: the zero value `""` when the key is absent. -/
def index (m : GoMap) (key : String) : String :=
  (m.lookup key).getD ""

/-- The assignment `m[key] = value`; `none` is the panic
"assignment to entry in nil map". -/
def assign (m : GoMap) (key value : String) : Option GoMap :=
  match m with
  | nil => none
  | mk a => some (mk (a.insert key value))

/-- The keys visited by `for k := range m`, in one of the orders Go may choose. -/
def rangeKeys : GoMap → List String
  | nil => []
  | mk a => a.keys

/-- The comparison `m == nil`, the only comparison Go allows on a map. -/
def isNil : GoMap → Bool
  | nil => true
  | mk _ => false

/-- The expression `make(map[string]string)`. -/
def make : GoMap := mk ∅

/-- A map literal `map[string]string{k1: v1, ...}`. -/
def literal (kvs : List (String × String)) : GoMap :=
  mk (kvs.foldl (fun a kv => a.insert kv.1 kv.2) ∅)

end GoMap

/-! ## The propagation carrier (`main.go`, lines 593-610) -/

/-- The type `propagationMapCarrier map[string]string`. -/
abbrev propagationMapCarrier := GoMap

/-- The method `Get`: `return c[key]`. -/
def propagationMapCarrier.Get (c : propagationMapCarrier) (key : String) : String :=
  GoMap.index c key

/-- The method `Set`: `c[key] = value`. The map is shared with the caller, so the
result is the new content of the backing map; `none` is the nil-map panic. -/
def propagationMapCarrier.Set (c : propagationMapCarrier) (key value : String) :
    Option propagationMapCarrier :=
  GoMap.assign c key value

/-- The method `Keys`: appends every key visited by `range c`. -/
def propagationMapCarrier.Keys (c : propagationMapCarrier) : List String :=
  (GoMap.rangeKeys c).foldl (fun keys k => keys ++ [k]) []

/-- A finite sequence of `Set` calls on one carrier, stopping at the first panic. -/
def applySets : propagationMapCarrier → List (String × String) → Option propagationMapCarrier
  | c, [] => some c
  | c, (k, v) :: rest =>
    match propagationMapCarrier.Set c k v with
    | none => none
    | some c' => applySets c' rest

/-- The value of the most recent `Set(k, _)` in a sequence of calls, if there is one. -/
def lastSet (k : String) : List (String × String) → Option String
  | [] => none
  | (k', v) :: rest =>
    match lastSet k rest with
    | some w => some w
    | none => if k' = k then some v else none

/-! ## Trace context and the text-map propagator -/

/-- The Trace Context of the tracing backend (`trace.SpanContext`): the trace id
and span id, as the numbers their byte arrays denote, and the remote flag. -/
structure SpanContext where
  traceID : Nat
  spanID : Nat
  remote : Bool
  deriving DecidableEq, Repr

/-- The check `SpanContext.IsValid`: a non-zero trace id and a non-zero span id. -/
def SpanContext.IsValid (sc : SpanContext) : Bool :=
  sc.traceID != 0 && sc.spanID != 0

/-- The part of a `context.Context` the tracing code reads: the span context it
carries, the zero span context when it carries none. -/
structure Context where
  span : SpanContext
  deriving DecidableEq, Repr

/-- The context `context.Background()`, which carries no span. -/
def Context.background : Context := ⟨⟨0, 0, false⟩⟩

/-- The global propagator `otel.GetTextMapPropagator()`, an external collaborator
taken as a parameter. It writes its headers only through the carrier's `Set` and
reads them only through the carrier's `Get`. -/
structure TextMapPropagator where
  /-- The `Set(key, value)` calls made by `Inject(ctx, carrier)`, in order. -/
  injectWrites : Context → List (String × String)
  /-- The result of `Extract(ctx, carrier)`, given the carrier's `Get`. -/
  extractFrom : Context → (String → String) → Context

/-- The call `Inject(ctx, carrier)`: the content of the backing map afterwards. -/
def TextMapPropagator.Inject (P : TextMapPropagator) (ctx : Context)
    (carrier : propagationMapCarrier) : Option propagationMapCarrier :=
  applySets carrier (P.injectWrites ctx)

/-- The call `Extract(ctx, carrier)`. -/
def TextMapPropagator.Extract (P : TextMapPropagator) (ctx : Context)
    (carrier : propagationMapCarrier) : Context :=
  P.extractFrom ctx (propagationMapCarrier.Get carrier)

/-- The propagator reconstructs the trace id of every valid Trace Context from any
store that returns, for each header it wrote, the value it wrote last. -/
def TextMapPropagator.RoundTrips (P : TextMapPropagator) : Prop :=
  ∀ (ctx : Context) (get : String → String), ctx.span.IsValid = true →
    (∀ k v, lastSet k (P.injectWrites ctx) = some v → get k = v) →
    (P.extractFrom Context.background get).span.traceID = ctx.span.traceID

/-- The function `injectTraceContext` (lines 576-585): a nil mapping is replaced by
a fresh one, the propagator injects into the carrier over it, and the mapping is
returned. -/
def injectTraceContext (P : TextMapPropagator) (ctx : Context) (properties : GoMap) :
    Option GoMap :=
  let properties := if properties.isNil then GoMap.make else properties
  P.Inject ctx properties

/-- The function `extractTraceContext` (lines 587-591). -/
def extractTraceContext (P : TextMapPropagator) (ctx : Context) (properties : GoMap) :
    Context :=
  P.Extract ctx properties

/-! ### A hexadecimal two-header propagator -/

/-- The hexadecimal digit character of a number below 16. -/
def hexDigit (d : Nat) : Char :=
  "0123456789abcdef".toList.getD d '0'

/-- The value of a hexadecimal digit character, 0 for any other character. -/
def hexValue (c : Char) : Nat :=
  "0123456789abcdef".toList.indexOf c % 16

/-- Hexadecimal text of a number, least significant digit first. -/
def hexEncode (n : Nat) : String :=
  String.mk ((Nat.digits 16 n).map hexDigit)

/-- The number denoted by hexadecimal text, least significant digit first. -/
def hexDecode (s : String) : Nat :=
  Nat.ofDigits 16 (s.toList.map hexValue)

/-- A propagator in the style of multi-header formats: it writes the trace id and
the span id of a valid span context under two header names, and reads them back as
a remote span context when both are non-zero. -/
def hexPropagator : TextMapPropagator where
  injectWrites ctx :=
    if ctx.span.IsValid then
      [("x-trace-id", hexEncode ctx.span.traceID), ("x-span-id", hexEncode ctx.span.spanID)]
    else []
  extractFrom ctx get :=
    let sc : SpanContext := ⟨hexDecode (get "x-trace-id"), hexDecode (get "x-span-id"), true⟩
    if sc.IsValid then ⟨sc⟩ else ctx

/-! ## Header parsing (`parseHeaders`, lines 490-501) -/

/-- The function `strings.Index(s, sep)` for a one-character separator: the position
of its first occurrence, `none` for Go's `-1`. Go cuts strings at bytes; the
separators used here, `','` and `'='`, are single bytes that never occur inside a
longer UTF-8 sequence, so cutting at characters gives the same pieces. -/
def stringsIndex (sep : Char) : List Char → Option Nat
  | [] => none
  | c :: cs => if c = sep then some 0 else (stringsIndex sep cs).map (· + 1)

/-- The loop of Go's `genSplit` for a one-character separator: at most `n` cuts, each
at the first separator of what is left, and the rest as the last piece. -/
def genSplit (sep : Char) : Nat → List Char → List (List Char)
  | 0, s => [s]
  | n + 1, s =>
    match stringsIndex sep s with
    | none => [s]
    | some m => s.take m :: genSplit sep n (s.drop (m + 1))

/-- The function `strings.Split(s, sep)` for a one-character separator: `genSplit`
with `n = Count(s, sep) + 1` pieces. -/
def stringsSplit (s : String) (sep : Char) : List String :=
  (genSplit sep (s.toList.count sep + 1 - 1) s.toList).map String.mk

/-- The function `strings.SplitN(s, sep, n)` for a one-character separator and
`n > 0`: `genSplit` with `n` lowered to `len(s) + 1` when it exceeds it. -/
def stringsSplitN (s : String) (sep : Char) (n : Nat) : List String :=
  let n := if n > s.utf8ByteSize + 1 then s.utf8ByteSize + 1 else n
  (genSplit sep (n - 1) s.toList).map String.mk

/-- The loop of `parseHeaders` over the pairs still to visit; `none` would be a
panic of the map assignment. -/
def parseHeadersLoop : List String → GoMap → Option GoMap
  | [], headers => some headers
  | pair :: rest, headers =>
    let parts := stringsSplitN pair '=' 2
    if parts.length = 2 then
      match GoMap.assign headers (parts.getD 0 "") (parts.getD 1 "") with
      | none => none
      | some headers' => parseHeadersLoop rest headers'
    else parseHeadersLoop rest headers

/-- The function `parseHeaders`. -/
def parseHeaders (headerString : String) : Option GoMap :=
  parseHeadersLoop (stringsSplit headerString ',') GoMap.make

/-- Reference definition, from the specification: the segments of a header string,
split on `','`. -/
def headerSegments (s : String) : List (List Char) :=
  s.toList.splitOn ','

/-- Reference definition, from the specification: a segment without `'='`
contributes nothing; a segment with `'='` contributes the text before its first
`'='` paired with the text after it. -/
def segmentPair (seg : List Char) : Option (String × String) :=
  if '=' ∈ seg then
    some (String.mk (seg.takeWhile (· ≠ '=')), String.mk ((seg.dropWhile (· ≠ '=')).drop 1))
  else none

/-- Reference definition, from the specification: the value a header string gives
to a key is that of the last contributed pair with this key. -/
def parseHeadersRef (s : String) (k : String) : Option String :=
  lastSet k ((headerSegments s).filterMap segmentPair)

/-! ## Time, spans and metric instruments -/

/-- A value of an attribute: `attribute.String` or `attribute.Bool`. -/
inductive AttrValue where
  | str : String → AttrValue
  | bool : Bool → AttrValue
  deriving DecidableEq, Repr

/-- An attribute set, as built for one call. -/
abbrev Attrs := List (String × AttrValue)

/-- Conversion to the 64-bit signed range, as Go's `int64` arithmetic wraps. -/
def int64Wrap (x : Int) : Int :=
  (x + 2 ^ 63) % 2 ^ 64 - 2 ^ 63

/-- Go's `subMono(t, u)` on two monotonic clock readings in nanoseconds: the
difference as a `time.Duration`, saturated when it overflows. -/
def subMono (t u : Int) : Int :=
  let d := int64Wrap (t - u)
  if d < 0 ∧ t > u then 2 ^ 63 - 1
  else if d > 0 ∧ t < u then -(2 ^ 63)
  else d

/-- The call `time.Since(startTime)` when the monotonic clock reads `now`. -/
def timeSince (startTime now : Int) : Int :=
  subMono now startTime

/-- The method `Duration.Milliseconds`: nanoseconds divided by `1e6`, rounded
toward zero. -/
def durationMilliseconds (d : Int) : Int :=
  Int.tdiv d 1000000

/-- One `Add` call on an `Int64Counter`. -/
structure CounterObs where
  value : Int
  attrs : Attrs
  deriving DecidableEq, Repr

/-- One `Record` call on a `Float64Histogram`. The recorded numbers are
`float64(duration.Milliseconds())`; a count of milliseconds in a 64-bit count of
nanoseconds is below `2 ^ 53`, so the conversion is exact and the value is kept as
the integer. -/
structure HistogramObs where
  value : Int
  attrs : Attrs
  deriving DecidableEq, Repr

/-- One `Record` call on a `Float64Gauge`, with the value as an exact rational; the
rounding of floating-point division is not represented. -/
structure GaugeObs where
  value : ℚ
  attrs : Attrs
  deriving DecidableEq, Repr

/-- The process-wide metric instruments, each as the sequence of calls made on it. -/
structure Metrics where
  messagesPublished : List CounterObs
  messagesConsumed : List CounterObs
  messagePublishLatency : List HistogramObs
  messageConsumeLatency : List HistogramObs
  activePulsarConnections : List CounterObs
  systemCPUUsage : List GaugeObs
  systemMemoryUsage : List GaugeObs
  systemMemoryTotal : List GaugeObs
  deriving DecidableEq, Repr

/-- The instruments before any call. -/
def Metrics.init : Metrics :=
  { messagesPublished := [], messagesConsumed := [], messagePublishLatency := [],
    messageConsumeLatency := [], activePulsarConnections := [], systemCPUUsage := [],
    systemMemoryUsage := [], systemMemoryTotal := [] }

/-- The function `recordPublishMetrics` (lines 381-398). -/
def recordPublishMetrics (m : Metrics) (duration : Int) (topic : String) (success : Bool) :
    Metrics :=
  let m := { m with messagesPublished := m.messagesPublished ++
    [CounterObs.mk 1 [("topic", .str topic), ("success", .bool success)]] }
  { m with messagePublishLatency := m.messagePublishLatency ++
    [HistogramObs.mk (durationMilliseconds duration)
      [("topic", .str topic), ("success", .bool success)]] }

/-- The function `recordConsumeMetrics` (lines 400-417). -/
def recordConsumeMetrics (m : Metrics) (duration : Int) (topic subscription : String) :
    Metrics :=
  let m := { m with messagesConsumed := m.messagesConsumed ++
    [CounterObs.mk 1 [("topic", .str topic), ("subscription", .str subscription)]] }
  { m with messageConsumeLatency := m.messageConsumeLatency ++
    [HistogramObs.mk (durationMilliseconds duration)
      [("topic", .str topic), ("subscription", .str subscription)]] }

/-- The status of a span: `codes.Unset`, `codes.Error`, `codes.Ok`. -/
inductive StatusCode where
  | Unset
  | Error
  | Ok
  deriving DecidableEq, Repr

/-- A span of the tracing backend, as far as this program acts on it. -/
structure Span where
  name : String
  spanContext : SpanContext
  parent : SpanContext
  attributes : Attrs
  status : StatusCode
  statusDescription : String
  recordedErrors : List String
  events : List String
  ended : Bool
  deriving DecidableEq, Repr

/-- The call `tracer.Start(ctx, name, trace.WithAttributes(attrs...))`: the new span is
a child of the span context carried by `ctx` when that one is valid, and the root of a
new trace otherwise; `newTraceID` and `newSpanID` come from the id generator. -/
def tracerStart (ctx : Context) (name : String) (attrs : Attrs) (newTraceID newSpanID : Nat) :
    Context × Span :=
  let sc : SpanContext :=
    if ctx.span.IsValid then ⟨ctx.span.traceID, newSpanID, false⟩
    else ⟨newTraceID, newSpanID, false⟩
  (⟨sc⟩,
    { name := name, spanContext := sc, parent := ctx.span, attributes := attrs,
      status := .Unset, statusDescription := "", recordedErrors := [], events := [],
      ended := false })

/-- The method `span.RecordError(err)`: the error is added to the span as an event;
the status is left as it is. -/
def Span.RecordError (s : Span) (err : String) : Span :=
  { s with recordedErrors := s.recordedErrors ++ [err] }

/-- The method `span.SetStatus(code, description)`, called at most once on a span
here, and before the span is ended. -/
def Span.SetStatus (s : Span) (code : StatusCode) (description : String) : Span :=
  { s with status := code, statusDescription := description }

/-- The method `span.SetAttributes(kv...)`. -/
def Span.SetAttributes (s : Span) (kv : Attrs) : Span :=
  { s with attributes := s.attributes ++ kv }

/-- The method `span.AddEvent(name)`. -/
def Span.AddEvent (s : Span) (name : String) : Span :=
  { s with events := s.events ++ [name] }

/-- The method `span.End()`. -/
def Span.End (s : Span) : Span :=
  { s with ended := true }

/-! ## The broker client and the observable state -/

/-- A message delivered by the broker (`pulsar.Message`). -/
structure Message where
  payload : String
  properties : GoMap
  id : String

/-- One call `producer.Send(msgCtx, msg)`: what was sent and what the broker client
returned, a message id or an error. -/
structure SendCall where
  payload : String
  properties : GoMap
  result : Except String String

/-- One call `consumer.Ack(msg)`, with the error the broker client returned, if any. -/
structure AckCall where
  msg : Message
  err : Option String

/-- Whether a send came back without error. -/
def SendCall.succeeded (s : SendCall) : Bool :=
  match s.result with
  | .ok _ => true
  | .error _ => false

/-- Everything the loops act on: the metric instruments, the spans started and the
spans ended, the calls made on the broker client and on the host introspection, and
the log. -/
structure World where
  metrics : Metrics
  started : List Span
  ended : List Span
  sends : List SendCall
  receives : List (Except String Message)
  acks : List AckCall
  cpuQueries : List (Except String (List ℚ))
  memQueries : List (Except String (Nat × Nat))
  logs : List (String × String)

/-- The state before any loop has run. -/
def World.init : World :=
  { metrics := Metrics.init, started := [], ended := [], sends := [], receives := [],
    acks := [], cpuQueries := [], memQueries := [], logs := [] }

/-- The calls `logger.Info(msg, ...)` and `logger.Error(msg, ...)`. -/
def World.log (w : World) (level msg : String) : World :=
  { w with logs := w.logs ++ [(level, msg)] }

/-- How far a loop got on a finite schedule: the state reached, and whether the loop
has returned (otherwise it is waiting in its `select`). -/
structure LoopResult where
  world : World
  returned : Bool

/-- A case of a `select` statement of the loops. -/
inductive SelectCase where
  | done
  | tick
  deriving DecidableEq, Repr

/-- Go's `select` over `<-ctx.Done()` and `<-ticker.C` without a default case: when
both can proceed one is chosen at random (`pick`), when one can proceed it is
chosen, and when none can the statement blocks (`none`). -/
def selectDoneOrTick (doneReady tickReady : Bool) (pick : SelectCase) : Option SelectCase :=
  match doneReady, tickReady with
  | true, true => some pick
  | true, false => some .done
  | false, true => some .tick
  | false, false => none

/-- Go's `select` over `<-ctx.Done()` with a `default` case: the default case runs
only when the channel cannot proceed; `true` is the `ctx.Done()` case. -/
def selectDoneOrDefault (doneReady : Bool) : Bool :=
  doneReady

/-! ## The produce loop (`produceMessages`, lines 612-681) -/

/-- What the environment presents at one pass of the produce loop: the readiness of
the two channels and the random choice of `select`, the clock readings, the ids of
the id generator, and the outcome of the send. -/
structure ProduceTurn where
  doneReady : Bool
  tickReady : Bool
  pick : SelectCase
  startTime : Int
  newTraceID : Nat
  newSpanID : Nat
  sendResult : Except String String
  endTime : Int

/-- The body of the `ticker.C` case of `produceMessages`. -/
def produceBody (P : TextMapPropagator) (ctx : Context) (topic : String) (t : ProduceTurn)
    (msgCount : Nat) (w : World) : Option (Nat × World) :=
  let startTime := t.startTime
  let msgCount := msgCount + 1
  let msgId := "msg-" ++ toString msgCount
  let message := "Hello, OpenTelemetry! Message " ++ toString msgCount
  let (msgCtx, span) := tracerStart ctx (topic ++ " publish")
    [("messaging.system", .str "pulsar"), ("messaging.operation", .str "publish"),
     ("messaging.message.id", .str msgId), ("messaging.destination.name", .str topic)]
    t.newTraceID t.newSpanID
  let w := { w with started := w.started ++ [span] }
  let properties := GoMap.literal [("message_id", msgId)]
  match injectTraceContext P msgCtx properties with
  | none => none
  | some properties =>
    let w := w.log "info" "Producing message"
    let w := { w with sends := w.sends ++ [SendCall.mk message properties t.sendResult] }
    let duration := timeSince startTime t.endTime
    let success := match t.sendResult with
      | .ok _ => true
      | .error _ => false
    let w := { w with metrics := recordPublishMetrics w.metrics duration topic success }
    match t.sendResult with
    | .error err =>
      let w := w.log "error" "Failed to publish message"
      let span := span.RecordError err
      let span := span.SetStatus .Error "Failed to publish message"
      some (msgCount, { w with ended := w.ended ++ [span.End] })
    | .ok msgID =>
      let w := w.log "info" "Published message"
      let span := span.SetAttributes [("pulsar.message_id", .str msgID)]
      some (msgCount, { w with ended := w.ended ++ [span.End] })

/-- The `for`/`select` loop of `produceMessages` over a finite schedule of passes. A
pass at which `select` blocks waits for the next one; `none` would be a panic. -/
def produceLoop (P : TextMapPropagator) (ctx : Context) (topic : String) :
    List ProduceTurn → Nat → World → Option LoopResult
  | [], _, w => some ⟨w, false⟩
  | t :: rest, msgCount, w =>
    match selectDoneOrTick t.doneReady t.tickReady t.pick with
    | none => produceLoop P ctx topic rest msgCount w
    | some .done => some ⟨w, true⟩
    | some .tick =>
      match produceBody P ctx topic t msgCount w with
      | none => none
      | some (msgCount', w') => produceLoop P ctx topic rest msgCount' w'

/-- The function `produceMessages`: `msgCount := 0`, then the loop. -/
def produceMessages (P : TextMapPropagator) (ctx : Context) (topic : String)
    (schedule : List ProduceTurn) (w : World) : Option LoopResult :=
  produceLoop P ctx topic schedule 0 w

/-! ## The consume loop (`consumeMessages`, lines 683-748) -/

/-- What the environment presents at one pass of the consume loop: whether the
context is cancelled when `select` is evaluated, the clock readings, the outcome of
`consumer.Receive`, the ids of the id generator, and the error returned by
`consumer.Ack`, if any. -/
structure ConsumeTurn where
  doneReady : Bool
  startTime : Int
  received : Except String Message
  newTraceID : Nat
  newSpanID : Nat
  ackErr : Option String
  endTime : Int

/-- The body of the `default` case of `consumeMessages`. The value returned by
`consumer.Ack(msg)` is discarded by the call site. -/
def consumeBody (P : TextMapPropagator) (ctx : Context) (topic subscription : String)
    (t : ConsumeTurn) (w : World) : World :=
  let startTime := t.startTime
  let w := { w with receives := w.receives ++ [t.received] }
  match t.received with
  | .error _ => w.log "error" "Error receiving message"
  | .ok msg =>
    let properties := msg.properties
    let msgID := match GoMap.lookup "message_id" properties with
      | some id => id
      | none => "unknown"
    let msgCtx := extractTraceContext P ctx properties
    let (_, span) := tracerStart msgCtx (topic ++ " process")
      [("messaging.system", .str "pulsar"), ("messaging.operation", .str "process"),
       ("messaging.message.id", .str msgID), ("messaging.destination.name", .str topic),
       ("pulsar.subscription", .str subscription), ("pulsar.message_id", .str msg.id)]
      t.newTraceID t.newSpanID
    let w := { w with started := w.started ++ [span] }
    let w := w.log "info" "Received message"
    let w := { w with acks := w.acks ++ [AckCall.mk msg t.ackErr] }
    let duration := timeSince startTime t.endTime
    let w := { w with metrics := recordConsumeMetrics w.metrics duration topic subscription }
    let span := span.AddEvent "message acknowledged"
    { w with ended := w.ended ++ [span.End] }

/-- The `for`/`select` loop of `consumeMessages` over a finite schedule of passes. -/
def consumeLoop (P : TextMapPropagator) (ctx : Context) (topic subscription : String) :
    List ConsumeTurn → World → LoopResult
  | [], w => ⟨w, false⟩
  | t :: rest, w =>
    if selectDoneOrDefault t.doneReady then ⟨w, true⟩
    else consumeLoop P ctx topic subscription rest (consumeBody P ctx topic subscription t w)

/-- The function `consumeMessages`; `topic` and `subscription` are what
`getEnvOrDefault` returned. -/
def consumeMessages (P : TextMapPropagator) (ctx : Context) (topic subscription : String)
    (schedule : List ConsumeTurn) (w : World) : LoopResult :=
  consumeLoop P ctx topic subscription schedule (w.log "info" "Starting consumer")

/-! ## The sampler loop (`collectSystemMetrics`, lines 429-479) -/

/-- The answers of the host introspection to one sample: `cpu.Percent(0, false)` and
`mem.VirtualMemory()` (used and total bytes). -/
structure HostQuery where
  cpu : Except String (List ℚ)
  mem : Except String (Nat × Nat)

/-- What the environment presents at one pass of the sampler loop. -/
structure SampleTurn where
  doneReady : Bool
  tickReady : Bool
  pick : SelectCase
  query : HostQuery

/-- The function `collectAndRecordMetrics`. -/
def collectAndRecordMetrics (hostAttributes : Attrs) (q : HostQuery) (w : World) : World :=
  let w := { w with cpuQueries := w.cpuQueries ++ [q.cpu] }
  let w := match q.cpu with
    | .ok cpuPercent =>
      if cpuPercent.length > 0 then
        let cpuRatio := cpuPercent.getD 0 0 / 100
        let w := { w with metrics := { w.metrics with systemCPUUsage :=
          w.metrics.systemCPUUsage ++ [GaugeObs.mk cpuRatio hostAttributes] } }
        w.log "info" "Recorded CPU usage"
      else w
    | .error _ => w.log "error" "Failed to collect CPU metrics"
  let w := { w with memQueries := w.memQueries ++ [q.mem] }
  match q.mem with
  | .ok (used, total) =>
    let w := { w with metrics := { w.metrics with systemMemoryUsage :=
      w.metrics.systemMemoryUsage ++ [GaugeObs.mk used hostAttributes] } }
    let w := { w with metrics := { w.metrics with systemMemoryTotal :=
      w.metrics.systemMemoryTotal ++ [GaugeObs.mk total hostAttributes] } }
    w.log "info" "Recorded memory metrics"
  | .error _ => w.log "error" "Failed to collect memory metrics"

/-- The `for`/`select` loop of `collectSystemMetrics` over a finite schedule. -/
def collectLoop (hostAttributes : Attrs) : List SampleTurn → World → LoopResult
  | [], w => ⟨w, false⟩
  | t :: rest, w =>
    match selectDoneOrTick t.doneReady t.tickReady t.pick with
    | none => collectLoop hostAttributes rest w
    | some .done => ⟨w, true⟩
    | some .tick => collectLoop hostAttributes rest (collectAndRecordMetrics hostAttributes t.query w)

/-- The function `collectSystemMetrics`: one sample at once, then the loop;
`hostname` is what `getHostname` returned. -/
def collectSystemMetrics (hostname : String) (first : HostQuery) (schedule : List SampleTurn)
    (w : World) : LoopResult :=
  let hostAttributes : Attrs := [("host.name", .str hostname)]
  let w := w.log "info" "Starting system metrics collection"
  collectLoop hostAttributes schedule (collectAndRecordMetrics hostAttributes first w)

/-! ## The passes at which a loop runs its body -/

/-- Whether the send of a pass came back without error. -/
def ProduceTurn.succeeded (t : ProduceTurn) : Bool :=
  match t.sendResult with
  | .ok _ => true
  | .error _ => false

/-- The passes of a schedule at which the produce loop makes a send attempt: those
at which `select` picks the tick, up to the pass at which it picks `ctx.Done()`. -/
def produceAttempts : List ProduceTurn → List ProduceTurn
  | [] => []
  | t :: rest =>
    match selectDoneOrTick t.doneReady t.tickReady t.pick with
    | none => produceAttempts rest
    | some .done => []
    | some .tick => t :: produceAttempts rest

/-- The passes of a schedule at which the consume loop calls `consumer.Receive`:
those before the pass at which `select` finds the context cancelled. -/
def consumeAttempts : List ConsumeTurn → List ConsumeTurn
  | [] => []
  | t :: rest => if selectDoneOrDefault t.doneReady then [] else t :: consumeAttempts rest

/-- The messages delivered to the consume loop, in order. -/
def receivedMessages (schedule : List ConsumeTurn) : List (ConsumeTurn × Message) :=
  (consumeAttempts schedule).filterMap fun t =>
    match t.received with
    | .ok msg => some (t, msg)
    | .error _ => none

/-- The clock of a pass runs forward: both readings are readings of the 64-bit
monotonic clock and the later one is not below the earlier one. -/
def clockRunsForward (startTime endTime : Int) : Prop :=
  0 ≤ startTime ∧ startTime ≤ endTime ∧ endTime < 2 ^ 63

/-- The terminal state the produce loop gives the span of a send attempt: the span
is ended; after a successful send the broker-returned message id is attached as the
attribute `pulsar.message_id` and the status is left unset; after a failed send the
error is recorded on the span and the status is `Error`. -/
def publishSpanOutcome (s : SendCall) (sp : Span) : Prop :=
  sp.ended = true ∧
  match s.result with
  | .ok msgID => ("pulsar.message_id", AttrValue.str msgID) ∈ sp.attributes ∧
      sp.status = StatusCode.Unset
  | .error err => err ∈ sp.recordedErrors ∧ sp.status = StatusCode.Error

/-- The calls of `recordPublishMetrics` made for a sequence of send attempts. -/
def recordAttempts (topic : String) (m : Metrics) (attempts : List ProduceTurn) : Metrics :=
  attempts.foldl
    (fun m t => recordPublishMetrics m (timeSince t.startTime t.endTime) topic t.succeeded) m

/-- The process span the consume loop starts for a delivered message. -/
def processSpan (P : TextMapPropagator) (ctx : Context) (topic subscription : String)
    (t : ConsumeTurn) (msg : Message) : Span :=
  (tracerStart (extractTraceContext P ctx msg.properties) (topic ++ " process")
      [("messaging.system", .str "pulsar"), ("messaging.operation", .str "process"),
       ("messaging.message.id", .str (match GoMap.lookup "message_id" msg.properties with
          | some id => id
          | none => "unknown")),
       ("messaging.destination.name", .str topic),
       ("pulsar.subscription", .str subscription), ("pulsar.message_id", .str msg.id)]
      t.newTraceID t.newSpanID).2

/-! ## Small schedules used to instantiate the theorems -/

/-- Two passes of the produce loop: a send that succeeds and a send that fails. -/
def demoProduced : List ProduceTurn :=
  [⟨false, true, .tick, 1000, 1, 2, .ok "1:0:0", 3500000⟩,
   ⟨false, true, .tick, 4000000, 3, 4, .error "send timeout", 9999999⟩]

/-- Three passes of the consume loop: a failed receive, a message carrying a
`message_id`, and a message with the nil property mapping whose `Ack` fails. -/
def demoConsumed : List ConsumeTurn :=
  [⟨false, 0, .error "receive timeout", 5, 6, none, 10⟩,
   ⟨false, 20, .ok ⟨"hello", GoMap.literal [("message_id", "msg-1")], "1:0:0"⟩, 7, 8, none,
     2000020⟩,
   ⟨false, 3000000, .ok ⟨"hello", GoMap.nil, "1:1:0"⟩, 9, 10, some "consumer closed",
     3999999⟩]

/-! ## The sampler loop on a timeline -/

/-- What the environment decides for one sample on a timeline: how long the call of
`collectAndRecordMetrics` takes, what the host introspection answers, and, for the
`select` that follows, the case it picks when both can proceed. -/
structure TimedSample where
  pick : SelectCase
  duration : Nat
  query : HostQuery

/-- The ticker of `time.NewTicker(period)` up to the time `now`: it fires every
`period`, a tick is kept in the one-slot channel `ticker.C` and further ticks are
dropped while the slot is full. Given the time of the next firing and whether the
slot is full, the result is the same two after the firings due by `now`. -/
def tickerDeliver (period now nextTick : Nat) (buffered : Bool) : Nat × Bool :=
  if nextTick ≤ now then (nextTick + period * ((now - nextTick) / period + 1), true)
  else (nextTick, buffered)

/-- The passes of the sampler loop on a timeline on which the ticker fires every
`period` and the cancellation signal fires at time `D`. The loop reaches its `select`
at time `now`; when neither case can proceed it waits until the ticker fires or the
signal does, whichever is first. After a tick is received the next sample takes its
`duration`. -/
def samplerTurns (period D : Nat) : Nat → Nat → Bool → List TimedSample → List SampleTurn
  | _, _, _, [] => []
  | now, nextTick, buffered, i :: rest =>
    let (nextTick, buffered) := tickerDeliver period now nextTick buffered
    let now := if decide (D ≤ now) || buffered then now else min nextTick D
    let (nextTick, buffered) := tickerDeliver period now nextTick buffered
    let doneReady := decide (D ≤ now)
    let turn := SampleTurn.mk doneReady buffered i.pick i.query
    match selectDoneOrTick doneReady buffered i.pick with
    | some .tick => turn :: samplerTurns period D (now + i.duration) nextTick false rest
    | _ => [turn]

/-- The function `collectSystemMetrics` started at time 0 and cancelled at time `D`:
the ticker of 15 units is created at time 0, the first sample is taken at once, and
the loop then runs on the timeline. -/
def collectSystemMetricsTimed (hostname : String) (D : Nat) (first : TimedSample)
    (inputs : List TimedSample) : LoopResult :=
  collectSystemMetrics hostname first.query (samplerTurns 15 D first.duration 15 false inputs)
    World.init

/-- The number of calls of `collectAndRecordMetrics` made so far: each makes one call
of `cpu.Percent`. -/
def World.sampleCount (w : World) : Nat :=
  w.cpuQueries.length

/-- Four samples of the sampler loop, each shorter than the interval, with `select`
picking the tick when it has the choice. -/
def demoSamples : List TimedSample :=
  [⟨.tick, 2, ⟨.ok [50], .ok (1, 2)⟩⟩, ⟨.tick, 0, ⟨.error "no cpu", .ok (1, 2)⟩⟩,
   ⟨.tick, 14, ⟨.ok [], .error "no memory"⟩⟩, ⟨.tick, 1, ⟨.ok [25], .ok (2, 2)⟩⟩]

/-! ## Start-up and teardown (`main`, lines 55-154) -/

/-- The function `recordConnectionChange` (lines 419-427). -/
def recordConnectionChange (m : Metrics) (deltaConnections : Int) (host : String) : Metrics :=
  { m with activePulsarConnections := m.activePulsarConnections ++
    [CounterObs.mk deltaConnections [("host", .str host)]] }

/-- What `main` does that can be seen from outside, in the order it does it. The log
lines written inside the initialisation functions are left out. -/
inductive MainEvent where
  | logged (level msg : String)
  | exited (code : Nat)
  | goStarted (function : String)
  | connectionChange (delta : Int)
  | cancelFired
  | consumerClosed
  | producerClosed
  | clientClosed
  | meterShutdown
  | tracerShutdown
  | loggerSynced
  deriving DecidableEq, Repr

/-- A call registered by one of the `defer` statements of `main`. -/
inductive Deferred where
  | loggerSync
  | tracerShutdown
  | meterShutdown
  | cancel
  | clientClose
  | recordConnectionChange (delta : Int) (host : String)
  | producerClose
  | consumerClose
  deriving DecidableEq, Repr

/-- What the environment decides for one run of `main`: the errors of the
initialisation steps, the configuration read from the process environment, and the
errors of the two `Shutdown` calls; `none` is a nil error. -/
structure MainEnv where
  initLoggerErr : Option String
  initTracerErr : Option String
  initMeterErr : Option String
  pulsarURL : String
  authToken : String
  newClientErr : Option String
  createProducerErr : Option String
  createConsumerErr : Option String
  tracerShutdownErr : Option String
  meterShutdownErr : Option String

/-- The state of a run of `main`: the instruments, what has happened, and the
deferred calls, the one registered last first. -/
structure MainState where
  metrics : Metrics
  events : List MainEvent
  deferred : List Deferred

/-- One more thing has happened. -/
def MainState.emit (s : MainState) (e : MainEvent) : MainState :=
  { s with events := s.events ++ [e] }

/-- A `defer` statement: the call is pushed on the stack of deferred calls. -/
def MainState.defer (s : MainState) (d : Deferred) : MainState :=
  { s with deferred := d :: s.deferred }

/-- The calls `log.Fatalf` and `logger.Fatal`: the message is logged and the process
exits with status 1; deferred calls are not run. -/
def MainState.fatal (s : MainState) (msg : String) : MainState :=
  (s.emit (.logged "fatal" msg)).emit (.exited 1)

/-- One deferred call of `main`, run. The two deferred functions that shut a provider
down log the error of `Shutdown`, if there is one, and return. -/
def runDeferred (env : MainEnv) (d : Deferred) (s : MainState) : MainState :=
  match d with
  | .loggerSync => s.emit .loggerSynced
  | .tracerShutdown =>
    let s := s.emit .tracerShutdown
    match env.tracerShutdownErr with
    | some _ => s.emit (.logged "error" "Error shutting down tracer provider")
    | none => s
  | .meterShutdown =>
    let s := s.emit .meterShutdown
    match env.meterShutdownErr with
    | some _ => s.emit (.logged "error" "Error shutting down meter provider")
    | none => s
  | .cancel => s.emit .cancelFired
  | .clientClose => s.emit .clientClosed
  | .recordConnectionChange delta host =>
    ({ s with metrics := recordConnectionChange s.metrics delta host }).emit
      (.connectionChange delta)
  | .producerClose => s.emit .producerClosed
  | .consumerClose => s.emit .consumerClosed

/-- The return of a function: its deferred calls run, the one registered last first. -/
def runDefers (env : MainEnv) : List Deferred → MainState → MainState
  | [], s => s
  | d :: rest, s => runDefers env rest (runDeferred env d s)

/-- The function `main`, for a run in which the interrupt signal arrives: the
initialisation steps in order, each `defer` where the source has it, the three
goroutines, the wait for the interrupt, and the return, at which the deferred calls
run. A failed initialisation step ends the run at once. -/
def main (env : MainEnv) : MainState :=
  let s : MainState := { metrics := Metrics.init, events := [], deferred := [] }
  match env.initLoggerErr with
  | some _ => s.fatal "Failed to initialize logger"
  | none =>
  let s := s.defer .loggerSync
  match env.initTracerErr with
  | some _ => s.fatal "Failed to initialize tracer"
  | none =>
  let s := s.defer .tracerShutdown
  match env.initMeterErr with
  | some _ => s.fatal "Failed to initialize meter provider"
  | none =>
  let s := s.defer .meterShutdown
  let s := s.defer .cancel
  let s := s.emit (.goStarted "collectSystemMetrics")
  let s :=
    if env.authToken ≠ "" then s.emit (.logged "info" "Using token authentication")
    else s.emit (.logged "info" "No authentication token provided, using anonymous access")
  match env.newClientErr with
  | some _ => s.fatal "Failed to create Pulsar client"
  | none =>
  let s := s.defer .clientClose
  let s := ({ s with metrics := recordConnectionChange s.metrics 1 env.pulsarURL }).emit
    (.connectionChange 1)
  let s := s.defer (.recordConnectionChange (-1) env.pulsarURL)
  match env.createProducerErr with
  | some _ => s.fatal "Failed to create producer"
  | none =>
  let s := s.defer .producerClose
  match env.createConsumerErr with
  | some _ => s.fatal "Failed to create consumer"
  | none =>
  let s := s.defer .consumerClose
  let s := s.emit (.goStarted "produceMessages")
  let s := s.emit (.goStarted "consumeMessages")
  let s := s.emit (.logged "info" "Shutting down...")
  runDefers env s.deferred { s with deferred := [] }

/-- A run of `main` in which every initialisation step succeeds. -/
def MainEnv.startsUp (env : MainEnv) : Prop :=
  env.initLoggerErr = none ∧ env.initTracerErr = none ∧ env.initMeterErr = none ∧
  env.newClientErr = none ∧ env.createProducerErr = none ∧ env.createConsumerErr = none

/-- A run of `main` without errors, except that the metrics export pipeline fails to
shut down. -/
def demoMainEnv : MainEnv :=
  { initLoggerErr := none, initTracerErr := none, initMeterErr := none,
    pulsarURL := "pulsar://localhost:6650", authToken := "",
    newClientErr := none, createProducerErr := none, createConsumerErr := none,
    tracerShutdownErr := none, meterShutdownErr := some "context deadline exceeded" }
/-! # Theorems -/

/-! ## Carrier laws -/

theorem foldl_append_singleton (l acc : List String) :
    l.foldl (fun keys k => keys ++ [k]) acc = acc ++ l := by
  induction l generalizing acc with
  | nil => simp
  | cons x xs ih => simp [ih]

theorem Keys_mk (a : StrMap) : propagationMapCarrier.Keys (GoMap.mk a) = a.keys := by
  simp [propagationMapCarrier.Keys, GoMap.rangeKeys, foldl_append_singleton]

theorem Get_mk (a : StrMap) (k : String) :
    propagationMapCarrier.Get (GoMap.mk a) k = (a.lookup k).getD "" := rfl

/-- On an allocated map a sequence of `Set` calls never panics; the resulting map
holds, for each key, the last value set, or else the value it had before. -/
theorem applySets_mk (sets : List (String × String)) (a : StrMap) :
    ∃ b : StrMap, applySets (GoMap.mk a) sets = some (GoMap.mk b) ∧
      (∀ k, b.lookup k = (lastSet k sets).orElse (fun _ => a.lookup k)) ∧
      (∀ k, k ∈ b.keys ↔ k ∈ a.keys ∨ k ∈ sets.map Prod.fst) := by
  induction sets generalizing a with
  | nil => exact ⟨a, rfl, fun k => by simp [lastSet], fun k => by simp⟩
  | cons kv rest ih =>
    obtain ⟨k', v⟩ := kv
    obtain ⟨b, hb, hl, hk⟩ := ih (a.insert k' v)
    refine ⟨b, ?_, ?_, ?_⟩
    · simpa [applySets, propagationMapCarrier.Set, GoMap.assign] using hb
    · intro k
      rw [hl k]
      cases hr : lastSet k rest with
      | some w => simp [lastSet, hr]
      | none =>
        by_cases hkk : k' = k
        · subst hkk
          simp [lastSet, hr, AList.lookup_insert]
        · have hne : k ≠ k' := fun h => hkk h.symm
          simp [lastSet, hr, hkk, AList.lookup_insert_ne hne]
    · intro k
      rw [hk k]
      simp only [← AList.mem_keys, AList.mem_insert, List.map_cons, List.mem_cons]
      tauto

/-- C1 (amended): `Get` on the nil map returns the empty string for every key, and
for every non-nil property mapping `m`, every finite sequence of `Set` calls on a
carrier backed by `m` and every key `k`, the calls complete and `Get(k)` returns the
value of the most recent `Set(k, v)`; if `k` was never set it returns the value `m`
holds for `k`, and the empty string if `k` is absent altogether. A further `Set` on
a different key `k'` (keys are compared exactly, case included) completes and leaves
`Get(k)` unchanged. -/
theorem carrier_get_returns_most_recent_set :
    (∀ k, propagationMapCarrier.Get GoMap.nil k = "") ∧
    ∀ (m : propagationMapCarrier), m ≠ GoMap.nil →
      ∀ (sets : List (String × String)) (k : String),
        ∃ c, applySets m sets = some c ∧
          propagationMapCarrier.Get c k =
            (match lastSet k sets, GoMap.lookup k m with
              | some v, _ => v
              | none, some w => w
              | none, none => "") ∧
          ∀ k' v', k' ≠ k → ∃ c', propagationMapCarrier.Set c k' v' = some c' ∧
            propagationMapCarrier.Get c' k = propagationMapCarrier.Get c k := by
  refine ⟨fun k => rfl, ?_⟩
  intro m hm sets k
  cases m with
  | nil => exact absurd rfl hm
  | mk a =>
    obtain ⟨b, hb, hl, _⟩ := applySets_mk sets a
    refine ⟨GoMap.mk b, hb, ?_, ?_⟩
    · rw [Get_mk, hl k]
      cases h1 : lastSet k sets <;> cases h2 : a.lookup k <;> simp [GoMap.lookup, h2]
    · intro k' v' hne
      refine ⟨GoMap.mk (b.insert k' v'), rfl, ?_⟩
      rw [Get_mk, Get_mk, AList.lookup_insert_ne (fun h => hne h.symm)]

/-- Instance of C1: on the map `{"x": "1"}`, after `Set("a", "1")`, `Set("A", "9")`,
`Set("a", "2")`, the key `"a"` reads `"2"`. -/
theorem carrier_get_returns_most_recent_set_witness :
    GoMap.literal [("x", "1")] ≠ GoMap.nil ∧
    ∃ c, applySets (GoMap.literal [("x", "1")]) [("a", "1"), ("A", "9"), ("a", "2")] = some c ∧
      propagationMapCarrier.Get c "a" = "2" ∧
      ∀ k' v', k' ≠ "a" → ∃ c', propagationMapCarrier.Set c k' v' = some c' ∧
        propagationMapCarrier.Get c' "a" = propagationMapCarrier.Get c "a" :=
  ⟨by decide,
    carrier_get_returns_most_recent_set.2 (GoMap.literal [("x", "1")]) (by decide)
      [("a", "1"), ("A", "9"), ("a", "2")] "a"⟩

/-- C1 as stated fails on the nil mapping: `Set("a", "1")` on a carrier backed by
the nil map panics, so no carrier state exists in which `Get("a")` returns `"1"`. -/
theorem carrier_set_on_nil_map_panics :
    propagationMapCarrier.Set GoMap.nil "a" "1" = none ∧
    ¬ ∃ c, applySets GoMap.nil [("a", "1")] = some c ∧
      propagationMapCarrier.Get c "a" = "1" := by
  refine ⟨rfl, ?_⟩
  rintro ⟨c, hc, _⟩
  simp [applySets, propagationMapCarrier.Set, GoMap.assign] at hc

/-- C3 (amended): for every mapping `m` and every finite sequence of `Set` calls on
a carrier backed by `m`, with `m` non-nil unless the sequence is empty, the calls
complete and `Keys()` returns a sequence without duplicates whose elements are
exactly the keys `m` held before the calls together with the keys passed to `Set`. -/
theorem carrier_keys_are_initial_and_set_keys (m : propagationMapCarrier)
    (sets : List (String × String)) (h : m ≠ GoMap.nil ∨ sets = []) :
    ∃ c, applySets m sets = some c ∧
      (propagationMapCarrier.Keys c).Nodup ∧
      ∀ k, k ∈ propagationMapCarrier.Keys c ↔
        k ∈ propagationMapCarrier.Keys m ∨ k ∈ sets.map Prod.fst := by
  cases m with
  | nil =>
    rcases h with h | h
    · exact absurd rfl h
    · subst h
      exact ⟨GoMap.nil, rfl, by simp [propagationMapCarrier.Keys, GoMap.rangeKeys], by simp⟩
  | mk a =>
    obtain ⟨b, hb, _, hk⟩ := applySets_mk sets a
    refine ⟨GoMap.mk b, hb, ?_, ?_⟩
    · rw [Keys_mk]
      exact b.keys_nodup
    · intro k
      rw [Keys_mk, Keys_mk]
      exact hk k

/-- Instance of C3: the map `{"x": "1"}` after `Set("a", "1")` and `Set("a", "2")`. -/
theorem carrier_keys_are_initial_and_set_keys_witness :
    (GoMap.literal [("x", "1")] ≠ GoMap.nil ∨ [("a", "1"), ("a", "2")] = ([] : List (String × String))) ∧
    ∃ c, applySets (GoMap.literal [("x", "1")]) [("a", "1"), ("a", "2")] = some c ∧
      (propagationMapCarrier.Keys c).Nodup ∧
      ∀ k, k ∈ propagationMapCarrier.Keys c ↔
        k ∈ propagationMapCarrier.Keys (GoMap.literal [("x", "1")]) ∨
          k ∈ [("a", "1"), ("a", "2")].map Prod.fst :=
  ⟨Or.inl (by decide),
    carrier_keys_are_initial_and_set_keys (GoMap.literal [("x", "1")]) [("a", "1"), ("a", "2")]
      (Or.inl (by decide))⟩

/-- C3 as stated fails: on a carrier backed by `{"x": "1"}` with no `Set` call at
all, `Keys()` returns `["x"]`, although no key was ever passed to `Set`. -/
theorem carrier_keys_include_initial_keys :
    applySets (GoMap.literal [("x", "1")]) [] = some (GoMap.literal [("x", "1")]) ∧
    propagationMapCarrier.Keys (GoMap.literal [("x", "1")]) = ["x"] ∧
    ¬ (∀ k, k ∈ propagationMapCarrier.Keys (GoMap.literal [("x", "1")]) ↔
        k ∈ ([] : List (String × String)).map Prod.fst) := by
  refine ⟨rfl, by decide, ?_⟩
  intro h
  have hx := (h "x").1 (by decide)
  simp at hx

/-! ## Round trip of the trace context -/

theorem hexValue_hexDigit : ∀ d, d < 16 → hexValue (hexDigit d) = d := by decide

theorem hexDecode_hexEncode (n : Nat) : hexDecode (hexEncode n) = n := by
  show Nat.ofDigits 16 (((Nat.digits 16 n).map hexDigit).map hexValue) = n
  have h : ((Nat.digits 16 n).map hexDigit).map hexValue = Nat.digits 16 n := by
    rw [List.map_map]
    conv_rhs => rw [← List.map_id (Nat.digits 16 n)]
    apply List.map_congr_left
    intro d hd
    exact hexValue_hexDigit d (Nat.digits_lt_base (by norm_num) hd)
  rw [h, Nat.ofDigits_digits]

theorem hexPropagator_roundTrips : hexPropagator.RoundTrips := by
  intro ctx get hv hget
  have h1 : get "x-trace-id" = hexEncode ctx.span.traceID :=
    hget _ _ (by simp [hexPropagator, hv, lastSet])
  have h2 : get "x-span-id" = hexEncode ctx.span.spanID :=
    hget _ _ (by simp [hexPropagator, hv, lastSet])
  have hv' : (SpanContext.mk ctx.span.traceID ctx.span.spanID true).IsValid = true := hv
  simp [hexPropagator, h1, h2, hexDecode_hexEncode, hv']

/-- On an allocated map, reading a key through `Get` after a sequence of `Set`
calls gives the last value set for it. -/
theorem Get_applySets_of_lastSet (a : StrMap) (sets : List (String × String)) (c : GoMap)
    (hc : applySets (GoMap.mk a) sets = some c) (k v : String) (h : lastSet k sets = some v) :
    propagationMapCarrier.Get c k = v := by
  obtain ⟨b, hb, hl, _⟩ := applySets_mk sets a
  rw [hb] at hc
  cases hc
  rw [Get_mk, hl k, h]
  rfl

/-- The carrier reads the same from two mappings with the same entries. -/
theorem Get_congr (q q' : GoMap) (h : ∀ k, GoMap.lookup k q' = GoMap.lookup k q) (k : String) :
    propagationMapCarrier.Get q' k = propagationMapCarrier.Get q k := by
  simp [propagationMapCarrier.Get, GoMap.index, h k]

/-- C2: for every propagator that round-trips through a faithful header store,
every context carrying a valid Trace Context and every property mapping `p` (nil
included), `injectTraceContext(ctx, p)` returns a mapping `q`, and for every mapping
`q'` with the same entries as `q`, `extractTraceContext` on the background context
with `q'` yields a context whose Trace Context has the trace id that was injected. -/
theorem inject_extract_round_trip (P : TextMapPropagator) (hP : P.RoundTrips)
    (ctx : Context) (hv : ctx.span.IsValid = true) (p : GoMap) :
    ∃ q, injectTraceContext P ctx p = some q ∧
      ∀ q', (∀ k, GoMap.lookup k q' = GoMap.lookup k q) →
        (extractTraceContext P Context.background q').span.traceID = ctx.span.traceID := by
  have key : ∀ a : StrMap, ∃ q, P.Inject ctx (GoMap.mk a) = some q ∧
      ∀ q', (∀ k, GoMap.lookup k q' = GoMap.lookup k q) →
        (extractTraceContext P Context.background q').span.traceID = ctx.span.traceID := by
    intro a
    obtain ⟨b, hb, _, _⟩ := applySets_mk (P.injectWrites ctx) a
    refine ⟨GoMap.mk b, hb, ?_⟩
    intro q' hq'
    apply hP ctx _ hv
    intro k v hk
    rw [Get_congr _ _ hq' k]
    exact Get_applySets_of_lastSet a _ _ hb k v hk
  cases p with
  | nil => exact key ∅
  | mk a => simpa [injectTraceContext] using key a

/-- Instance of C2: the hexadecimal two-header propagator, a context with trace id
`0xbeef` and span id 7, and the nil property mapping. -/
theorem inject_extract_round_trip_witness :
    hexPropagator.RoundTrips ∧
    (Context.mk ⟨48879, 7, false⟩).span.IsValid = true ∧
    ∃ q, injectTraceContext hexPropagator ⟨⟨48879, 7, false⟩⟩ GoMap.nil = some q ∧
      ∀ q', (∀ k, GoMap.lookup k q' = GoMap.lookup k q) →
        (extractTraceContext hexPropagator Context.background q').span.traceID = 48879 :=
  ⟨hexPropagator_roundTrips, by decide,
    inject_extract_round_trip hexPropagator hexPropagator_roundTrips ⟨⟨48879, 7, false⟩⟩
      (by decide) GoMap.nil⟩

/-! ## Header parsing -/

theorem genSplit_cons_ne (sep c : Char) (h : c ≠ sep) (n : Nat) (cs : List Char) :
    genSplit sep n (c :: cs) = (genSplit sep n cs).modifyHead (c :: ·) := by
  cases n with
  | zero => simp [genSplit]
  | succ n =>
    cases hi : stringsIndex sep cs with
    | none => simp [genSplit, stringsIndex, h, hi]
    | some m => simp [genSplit, stringsIndex, h, hi]

theorem genSplit_cons_sep (sep : Char) (n : Nat) (cs : List Char) :
    genSplit sep (n + 1) (sep :: cs) = [] :: genSplit sep n cs := by
  simp [genSplit, stringsIndex]

/-- With as many cuts as there are separators, `genSplit` is the split of the whole
text at every separator. -/
theorem genSplit_count_eq_splitOn (sep : Char) (s : List Char) :
    genSplit sep (s.count sep) s = s.splitOn sep := by
  induction s with
  | nil => simp [genSplit, List.splitOn]
  | cons c cs ih =>
    unfold List.splitOn at ih ⊢
    rw [List.splitOnP_cons]
    by_cases h : c = sep
    · subst h
      simp [genSplit_cons_sep, ih]
    · have hc : (c :: cs).count sep = cs.count sep := by
        simp [List.count_cons, h]
      rw [hc, genSplit_cons_ne sep c h, ih]
      simp [h]

theorem genSplit_one (sep : Char) (s : List Char) :
    genSplit sep 1 s =
      if sep ∈ s then [s.takeWhile (· ≠ sep), (s.dropWhile (· ≠ sep)).drop 1] else [s] := by
  induction s with
  | nil => simp [genSplit, stringsIndex]
  | cons c cs ih =>
    by_cases h : c = sep
    · subst h
      rw [genSplit_cons_sep]
      simp [genSplit]
    · rw [genSplit_cons_ne sep c h, ih]
      have h' : ¬ sep = c := fun e => h e.symm
      by_cases hm : sep ∈ cs
      · simp [hm, h, h', List.takeWhile_cons, List.dropWhile_cons]
      · simp [hm, h, h']

theorem utf8ByteSize_pos_of_ne_nil (s : String) (h : s.toList ≠ []) : 0 < s.utf8ByteSize := by
  obtain ⟨l⟩ := s
  cases l with
  | nil => exact absurd rfl h
  | cons c cs =>
    have := c.utf8Size_pos
    simp only [String.utf8ByteSize, String.utf8ByteSize.go]
    omega

/-- The two-piece split of a pair at its first `'='`. -/
theorem stringsSplitN_two (pair : String) :
    stringsSplitN pair '=' 2 =
      if '=' ∈ pair.toList then
        [String.mk (pair.toList.takeWhile (· ≠ '=')),
          String.mk ((pair.toList.dropWhile (· ≠ '=')).drop 1)]
      else [pair] := by
  by_cases he : pair.toList = []
  · have hp : pair = "" := by
      obtain ⟨l⟩ := pair
      simp only [String.toList] at he
      subst he
      rfl
    subst hp
    rfl
  · have hpos := utf8ByteSize_pos_of_ne_nil pair he
    have hn : (if 2 > pair.utf8ByteSize + 1 then pair.utf8ByteSize + 1 else 2) = 2 := by
      rw [if_neg (by omega)]
    have hs : stringsSplitN pair '=' 2 = (genSplit '=' 1 pair.toList).map String.mk := by
      simp only [stringsSplitN, hn]
    rw [hs, genSplit_one]
    by_cases hm : '=' ∈ pair.toList
    · rw [if_pos hm, if_pos hm]
      rfl
    · rw [if_neg hm, if_neg hm]
      rfl

/-- The pair a segment contributes, in the shape of the loop body. -/
theorem segmentPair_eq (pair : String) :
    segmentPair pair.toList =
      if (stringsSplitN pair '=' 2).length = 2 then
        some ((stringsSplitN pair '=' 2).getD 0 "", (stringsSplitN pair '=' 2).getD 1 "")
      else none := by
  rw [stringsSplitN_two]
  unfold segmentPair
  split <;> simp

/-- The loop of `parseHeaders` is the sequence of assignments of the contributed
pairs. -/
theorem parseHeadersLoop_eq_applySets (pairs : List String) (headers : GoMap) :
    parseHeadersLoop pairs headers =
      applySets headers (pairs.filterMap (fun p => segmentPair p.toList)) := by
  induction pairs generalizing headers with
  | nil => rfl
  | cons p rest ih =>
    rw [List.filterMap_cons, segmentPair_eq]
    by_cases h : (stringsSplitN p '=' 2).length = 2
    · simp only [parseHeadersLoop, h, if_true, applySets, propagationMapCarrier.Set]
      cases GoMap.assign headers _ _ with
      | none => rfl
      | some h' => exact ih h'
    · simp only [parseHeadersLoop, h, if_false]
      exact ih headers

/-- C7: for every header string `s`, `parseHeaders(s)` returns an allocated mapping
that holds, for every key, exactly what the reference definition gives: the string
is split on `','`, a segment without `'='` contributes nothing, a segment with `'='`
contributes the text before its first `'='` paired with the text after it, a later
segment overriding an earlier one with the same key. In particular
`parseHeaders("a=1,b")` is the mapping `{"a": "1"}`. -/
theorem parseHeaders_eq_reference :
    (∀ s : String, ∃ a : StrMap, parseHeaders s = some (GoMap.mk a) ∧
      ∀ k, a.lookup k = parseHeadersRef s k) ∧
    parseHeaders "a=1,b" = some (GoMap.literal [("a", "1")]) := by
  refine ⟨?_, rfl⟩
  intro s
  obtain ⟨b, hb, hl, _⟩ :=
    applySets_mk ((stringsSplit s ',').filterMap (fun p => segmentPair p.toList)) ∅
  refine ⟨b, ?_, ?_⟩
  · rw [parseHeaders, parseHeadersLoop_eq_applySets]
    exact hb
  · intro k
    rw [hl k]
    have hseg : (stringsSplit s ',').filterMap (fun p => segmentPair p.toList) =
        (headerSegments s).filterMap segmentPair := by
      simp only [stringsSplit, Nat.add_sub_cancel, genSplit_count_eq_splitOn, headerSegments,
        List.filterMap_map]
      rfl
    rw [hseg, parseHeadersRef]
    cases lastSet k ((headerSegments s).filterMap segmentPair) <;> simp
theorem injectTraceContext_literal (P : TextMapPropagator) (ctx : Context)
    (kvs : List (String × String)) :
    ∃ b : StrMap, injectTraceContext P ctx (GoMap.literal kvs) = some (GoMap.mk b) := by
  obtain ⟨b, hb, _, _⟩ :=
    applySets_mk (P.injectWrites ctx) (kvs.foldl (fun a kv => a.insert kv.1 kv.2) ∅)
  exact ⟨b, hb⟩

/-- The state a send attempt leaves behind. -/
theorem produceBody_effect (P : TextMapPropagator) (ctx : Context) (topic : String)
    (t : ProduceTurn) (n : Nat) (w : World) :
    ∃ (w' : World) (props : GoMap) (sp : Span),
      produceBody P ctx topic t n w = some (n + 1, w') ∧
      w'.metrics = recordPublishMetrics w.metrics (timeSince t.startTime t.endTime) topic
        t.succeeded ∧
      w'.sends = w.sends ++
        [SendCall.mk ("Hello, OpenTelemetry! Message " ++ toString (n + 1)) props t.sendResult] ∧
      w'.ended = w.ended ++ [sp] ∧
      sp.ended = true ∧
      (match t.sendResult with
        | .ok msgID => ("pulsar.message_id", AttrValue.str msgID) ∈ sp.attributes ∧
            sp.status = StatusCode.Unset ∧ sp.recordedErrors = []
        | .error err => sp.recordedErrors = [err] ∧ sp.status = StatusCode.Error ∧
            sp.statusDescription = "Failed to publish message") := by
  obtain ⟨b, hb⟩ := injectTraceContext_literal P
    (tracerStart ctx (topic ++ " publish")
      [("messaging.system", .str "pulsar"), ("messaging.operation", .str "publish"),
       ("messaging.message.id", .str ("msg-" ++ toString (n + 1))),
       ("messaging.destination.name", .str topic)] t.newTraceID t.newSpanID).1
    [("message_id", "msg-" ++ toString (n + 1))]
  cases hbody : produceBody P ctx topic t n w with
  | none =>
    simp only [produceBody, hb] at hbody
    cases hres : t.sendResult <;> simp [hres] at hbody
  | some r =>
    obtain ⟨m, w'⟩ := r
    simp only [produceBody, hb] at hbody
    cases hres : t.sendResult with
    | ok msgID =>
      simp only [hres, Option.some.injEq, Prod.mk.injEq] at hbody
      obtain ⟨rfl, rfl⟩ := hbody
      exact ⟨_, GoMap.mk b, _, rfl, by simp [World.log, ProduceTurn.succeeded, hres],
        by simp [World.log], rfl, rfl,
        by simp [Span.End, Span.SetAttributes, tracerStart]⟩
    | error err =>
      simp only [hres, Option.some.injEq, Prod.mk.injEq] at hbody
      obtain ⟨rfl, rfl⟩ := hbody
      exact ⟨_, GoMap.mk b, _, rfl, by simp [World.log, ProduceTurn.succeeded, hres],
        by simp [World.log], rfl, rfl,
        by simp [Span.End, Span.SetStatus, Span.RecordError, tracerStart]⟩
/-- What a run of the produce loop adds to the state: one call of
`recordPublishMetrics`, one send and one ended span for each attempt. -/
theorem produceLoop_effect (P : TextMapPropagator) (ctx : Context) (topic : String)
    (schedule : List ProduceTurn) (n : Nat) (w : World) :
    ∃ (r : LoopResult) (newSends : List SendCall) (newSpans : List Span),
      produceLoop P ctx topic schedule n w = some r ∧
      r.world.metrics = recordAttempts topic w.metrics (produceAttempts schedule) ∧
      r.world.sends = w.sends ++ newSends ∧
      r.world.ended = w.ended ++ newSpans ∧
      List.Forall₂ (fun s t => s.result = t.sendResult) newSends (produceAttempts schedule) ∧
      List.Forall₂ publishSpanOutcome newSends newSpans := by
  induction schedule generalizing n w with
  | nil => exact ⟨⟨w, false⟩, [], [], rfl, rfl, by simp, by simp, List.Forall₂.nil, List.Forall₂.nil⟩
  | cons t rest ih =>
    cases hsel : selectDoneOrTick t.doneReady t.tickReady t.pick with
    | none =>
      obtain ⟨r, ns, nsp, h1, h2, h3, h4, h5, h6⟩ := ih n w
      refine ⟨r, ns, nsp, ?_, ?_, h3, h4, ?_, h6⟩
      · simp only [produceLoop, hsel]
        exact h1
      · simp only [produceAttempts, hsel]
        exact h2
      · simp only [produceAttempts, hsel]
        exact h5
    | some c =>
      cases c with
      | done =>
        refine ⟨⟨w, true⟩, [], [], ?_, ?_, by simp, by simp, ?_, List.Forall₂.nil⟩
        · simp only [produceLoop, hsel]
        · simp only [produceAttempts, hsel]
          rfl
        · simp only [produceAttempts, hsel]
          exact List.Forall₂.nil
      | tick =>
        obtain ⟨w', props, sp, hb, hm, hs, he, hend, hout⟩ := produceBody_effect P ctx topic t n w
        obtain ⟨r, ns, nsp, h1, h2, h3, h4, h5, h6⟩ := ih (n + 1) w'
        refine ⟨r, SendCall.mk ("Hello, OpenTelemetry! Message " ++ toString (n + 1)) props
          t.sendResult :: ns, sp :: nsp, ?_, ?_, ?_, ?_, ?_, ?_⟩
        · simp only [produceLoop, hsel, hb]
          exact h1
        · simp only [produceAttempts, hsel]
          rw [h2, hm]
          rfl
        · rw [h3, hs]
          simp
        · rw [h4, he]
          simp
        · simp only [produceAttempts, hsel]
          exact List.Forall₂.cons rfl h5
        · refine List.Forall₂.cons ⟨hend, ?_⟩ h6
          cases hres : t.sendResult with
          | ok msgID =>
            rw [hres] at hout
            exact ⟨hout.1, hout.2.1⟩
          | error err =>
            rw [hres] at hout
            simp only
            exact ⟨by rw [hout.1]; simp, hout.2.1⟩
theorem recordAttempts_published (topic : String) (l : List ProduceTurn) (m : Metrics) :
    (recordAttempts topic m l).messagesPublished = m.messagesPublished ++
      l.map (fun t => CounterObs.mk 1 [("topic", .str topic), ("success", .bool t.succeeded)]) := by
  induction l generalizing m with
  | nil => simp [recordAttempts]
  | cons t rest ih =>
    have h := ih (recordPublishMetrics m (timeSince t.startTime t.endTime) topic t.succeeded)
    simp only [recordAttempts, List.foldl_cons] at h ⊢
    rw [h]
    simp [recordPublishMetrics]

theorem recordAttempts_latency (topic : String) (l : List ProduceTurn) (m : Metrics) :
    (recordAttempts topic m l).messagePublishLatency = m.messagePublishLatency ++
      l.map (fun t => HistogramObs.mk (durationMilliseconds (timeSince t.startTime t.endTime))
        [("topic", .str topic), ("success", .bool t.succeeded)]) := by
  induction l generalizing m with
  | nil => simp [recordAttempts]
  | cons t rest ih =>
    have h := ih (recordPublishMetrics m (timeSince t.startTime t.endTime) topic t.succeeded)
    simp only [recordAttempts, List.foldl_cons] at h ⊢
    rw [h]
    simp [recordPublishMetrics]

/-- Sends and attempts with the same outcomes succeed equally often. -/
theorem countP_succeeded_eq (sends : List SendCall) (attempts : List ProduceTurn)
    (h : List.Forall₂ (fun s t => s.result = t.sendResult) sends attempts) :
    sends.countP SendCall.succeeded = attempts.countP ProduceTurn.succeeded ∧
    sends.countP (fun s => !s.succeeded) = attempts.countP (fun t => !t.succeeded) ∧
    sends.length = attempts.length := by
  induction h with
  | nil => simp
  | @cons s t _ _ hst _ ih =>
    have hs : s.succeeded = t.succeeded := by
      simp [SendCall.succeeded, ProduceTurn.succeeded, hst]
    simp [List.countP_cons, hs, ih.1, ih.2.1, ih.2.2]


/-- C4: for every run of the produce loop, with `N` the number of sends that
succeeded and `M` the number of sends that failed, the metric instruments are what
`N + M` calls of `recordPublishMetrics`, one per send attempt, leave behind: the
publish counter holds `N + M` additions, each of 1 and tagged with the topic, the
publish-latency histogram holds `N + M` observations tagged with the topic, and of
the additions exactly `N` are tagged `success=true` and exactly `M` are tagged
`success=false`. -/
theorem publish_metrics_conservation (P : TextMapPropagator) (ctx : Context) (topic : String)
    (schedule : List ProduceTurn) :
    ∃ r, produceMessages P ctx topic schedule World.init = some r ∧
      r.world.metrics = recordAttempts topic Metrics.init (produceAttempts schedule) ∧
      (produceAttempts schedule).length =
        r.world.sends.countP SendCall.succeeded + r.world.sends.countP (fun s => !s.succeeded) ∧
      r.world.metrics.messagesPublished.length =
        r.world.sends.countP SendCall.succeeded + r.world.sends.countP (fun s => !s.succeeded) ∧
      (∀ o ∈ r.world.metrics.messagesPublished,
        o.value = 1 ∧ ("topic", AttrValue.str topic) ∈ o.attrs) ∧
      r.world.metrics.messagePublishLatency.length =
        r.world.sends.countP SendCall.succeeded + r.world.sends.countP (fun s => !s.succeeded) ∧
      (∀ o ∈ r.world.metrics.messagePublishLatency, ("topic", AttrValue.str topic) ∈ o.attrs) ∧
      r.world.metrics.messagesPublished.countP
          (fun o => decide (("success", AttrValue.bool true) ∈ o.attrs)) =
        r.world.sends.countP SendCall.succeeded ∧
      r.world.metrics.messagesPublished.countP
          (fun o => decide (("success", AttrValue.bool false) ∈ o.attrs)) =
        r.world.sends.countP (fun s => !s.succeeded) := by
  obtain ⟨r, ns, nsp, h1, h2, h3, _, h5, _⟩ := produceLoop_effect P ctx topic schedule 0 World.init
  have hs : r.world.sends = ns := by simpa [World.init] using h3
  obtain ⟨c1, c2, c3⟩ := countP_succeeded_eq ns _ h5
  have hsplit : ∀ l : List ProduceTurn,
      l.length = l.countP ProduceTurn.succeeded + l.countP (fun t => !t.succeeded) := by
    intro l
    induction l with
    | nil => rfl
    | cons t rest ih =>
      cases ht : t.succeeded <;> simp [List.countP_cons, ht] <;> omega
  have h2 : r.world.metrics = recordAttempts topic Metrics.init (produceAttempts schedule) := h2
  have hpub : (recordAttempts topic Metrics.init (produceAttempts schedule)).messagesPublished =
      (produceAttempts schedule).map (fun t =>
        CounterObs.mk 1 [("topic", .str topic), ("success", .bool t.succeeded)]) := by
    rw [recordAttempts_published]
    rfl
  have hlat : (recordAttempts topic Metrics.init (produceAttempts schedule)).messagePublishLatency =
      (produceAttempts schedule).map (fun t =>
        HistogramObs.mk (durationMilliseconds (timeSince t.startTime t.endTime))
          [("topic", .str topic), ("success", .bool t.succeeded)]) := by
    rw [recordAttempts_latency]
    rfl
  refine ⟨r, h1, h2, ?_, ?_, ?_, ?_, ?_, ?_, ?_⟩
  · rw [hs, c1, c2]
    exact hsplit _
  · rw [h2, hpub, hs, c1, c2, List.length_map]
    exact hsplit _
  · intro o ho
    rw [h2, hpub] at ho
    obtain ⟨t, _, rfl⟩ := List.mem_map.1 ho
    simp
  · rw [h2, hlat, hs, c1, c2, List.length_map]
    exact hsplit _
  · intro o ho
    rw [h2, hlat] at ho
    obtain ⟨t, _, rfl⟩ := List.mem_map.1 ho
    simp
  · rw [h2, hpub, hs, c1, List.countP_map]
    congr 1
    funext t
    cases ht : t.succeeded <;> simp [ht]
  · rw [h2, hpub, hs, c2, List.countP_map]
    congr 1
    funext t
    cases ht : t.succeeded <;> simp [ht]
/-- C5 (amended): for every run of the produce loop, the spans ended by the loop are,
in order, the spans of its send attempts, and each is ended with the terminal state
the code gives it: when the send succeeded the broker-returned message id is attached
to the span as the attribute `pulsar.message_id` and the status is left unset; when
the send failed the error is recorded on the span and the status is set to error. -/
theorem publish_span_terminal_status (P : TextMapPropagator) (ctx : Context) (topic : String)
    (schedule : List ProduceTurn) :
    ∃ r, produceMessages P ctx topic schedule World.init = some r ∧
      List.Forall₂ publishSpanOutcome r.world.sends r.world.ended := by
  obtain ⟨r, ns, nsp, h1, _, h3, h4, _, h6⟩ :=
    produceLoop_effect P ctx topic schedule 0 World.init
  refine ⟨r, h1, ?_⟩
  have hs : r.world.sends = ns := by simpa [World.init] using h3
  have he : r.world.ended = nsp := by simpa [World.init] using h4
  rw [hs, he]
  exact h6

/-- C5 as stated fails: after one send that succeeds, the span the loop ends has
status `Unset`, not `Ok`; the loop never sets the status of a span to `Ok`. -/
theorem publish_span_status_unset_after_success :
    (produceMessages hexPropagator Context.background "my-topic"
        [⟨false, true, .tick, 0, 1, 2, .ok "1:0:0", 1000000⟩] World.init).map
      (fun r => r.world.ended.map (fun sp => (sp.status, sp.ended))) =
      some [(StatusCode.Unset, true)] ∧
    (produceMessages hexPropagator Context.background "my-topic"
        [⟨false, true, .tick, 0, 1, 2, .ok "1:0:0", 1000000⟩] World.init).map
      (fun r => r.world.ended.map (fun sp => (sp.status, sp.ended))) ≠
      some [(StatusCode.Ok, true)] := by
  decide

theorem int64Wrap_of_range (x : Int) (h0 : 0 ≤ x) (h1 : x < 2 ^ 63) : int64Wrap x = x := by
  unfold int64Wrap
  have h : (x + 2 ^ 63) % 2 ^ 64 = x + 2 ^ 63 :=
    Int.emod_eq_of_lt (by omega) (by omega)
  omega

/-- With the clock running forward, `time.Since` is the difference of the readings. -/
theorem timeSince_of_clockRunsForward (s e : Int) (h : clockRunsForward s e) :
    timeSince s e = e - s := by
  obtain ⟨h0, h1, h2⟩ := h
  have hw := int64Wrap_of_range (e - s) (by omega) (by omega)
  simp only [timeSince, subMono, hw]
  rw [if_neg (by omega), if_neg (by omega)]

theorem durationMilliseconds_timeSince (s e : Int) (h : clockRunsForward s e) :
    durationMilliseconds (timeSince s e) = Int.tdiv (e - s) 1000000 ∧
    0 ≤ durationMilliseconds (timeSince s e) := by
  rw [timeSince_of_clockRunsForward s e h]
  exact ⟨rfl, Int.tdiv_nonneg (by have := h.2.1; omega) (by norm_num)⟩
/-- A pass whose receive fails adds the receive call and a log line, and nothing
else. -/
theorem consumeBody_error (P : TextMapPropagator) (ctx : Context) (topic subscription : String)
    (t : ConsumeTurn) (w : World) (e : String) (h : t.received = Except.error e) :
    consumeBody P ctx topic subscription t w =
      ({ w with receives := w.receives ++ [Except.error e] }).log "error"
        "Error receiving message" := by
  simp only [consumeBody, h]

theorem consumeBody_ok (P : TextMapPropagator) (ctx : Context) (topic subscription : String)
    (t : ConsumeTurn) (w : World) (msg : Message) (h : t.received = Except.ok msg) :
    (consumeBody P ctx topic subscription t w).metrics =
        recordConsumeMetrics w.metrics (timeSince t.startTime t.endTime) topic subscription ∧
      (consumeBody P ctx topic subscription t w).acks = w.acks ++ [AckCall.mk msg t.ackErr] ∧
      (consumeBody P ctx topic subscription t w).receives = w.receives ++ [Except.ok msg] ∧
      (consumeBody P ctx topic subscription t w).started =
        w.started ++ [processSpan P ctx topic subscription t msg] ∧
      (consumeBody P ctx topic subscription t w).ended =
        w.ended ++ [((processSpan P ctx topic subscription t msg).AddEvent
          "message acknowledged").End] := by
  simp [consumeBody, h, World.log, processSpan]
theorem receivedMessages_done (t : ConsumeTurn) (rest : List ConsumeTurn)
    (h : t.doneReady = true) : receivedMessages (t :: rest) = [] := by
  simp [receivedMessages, consumeAttempts, selectDoneOrDefault, h]

theorem receivedMessages_ok (t : ConsumeTurn) (rest : List ConsumeTurn) (msg : Message)
    (h : t.doneReady = false) (hr : t.received = Except.ok msg) :
    receivedMessages (t :: rest) = (t, msg) :: receivedMessages rest := by
  simp [receivedMessages, consumeAttempts, selectDoneOrDefault, h, hr]

theorem receivedMessages_error (t : ConsumeTurn) (rest : List ConsumeTurn) (e : String)
    (h : t.doneReady = false) (hr : t.received = Except.error e) :
    receivedMessages (t :: rest) = receivedMessages rest := by
  simp [receivedMessages, consumeAttempts, selectDoneOrDefault, h, hr]

/-- What a run of the consume loop adds to the state: one receive call per pass, and
for each delivered message one process span, one `Ack` call and one call of
`recordConsumeMetrics`. -/
theorem consumeLoop_effect (P : TextMapPropagator) (ctx : Context) (topic subscription : String)
    (schedule : List ConsumeTurn) (w : World) :
    (consumeLoop P ctx topic subscription schedule w).world.metrics.messagesConsumed =
        w.metrics.messagesConsumed ++ (receivedMessages schedule).map (fun _ =>
          CounterObs.mk 1 [("topic", .str topic), ("subscription", .str subscription)]) ∧
      (consumeLoop P ctx topic subscription schedule w).world.metrics.messageConsumeLatency =
        w.metrics.messageConsumeLatency ++ (receivedMessages schedule).map (fun p =>
          HistogramObs.mk (durationMilliseconds (timeSince p.1.startTime p.1.endTime))
            [("topic", .str topic), ("subscription", .str subscription)]) ∧
      (consumeLoop P ctx topic subscription schedule w).world.acks =
        w.acks ++ (receivedMessages schedule).map (fun p => AckCall.mk p.2 p.1.ackErr) ∧
      (consumeLoop P ctx topic subscription schedule w).world.receives =
        w.receives ++ (consumeAttempts schedule).map (fun t => t.received) ∧
      (consumeLoop P ctx topic subscription schedule w).world.started =
        w.started ++ (receivedMessages schedule).map (fun p =>
          processSpan P ctx topic subscription p.1 p.2) := by
  induction schedule generalizing w with
  | nil => simp [consumeLoop, receivedMessages, consumeAttempts]
  | cons t rest ih =>
    cases hd : t.doneReady with
    | true =>
      simp [consumeLoop, selectDoneOrDefault, hd, receivedMessages_done t rest hd,
        consumeAttempts]
    | false =>
      have hloop : consumeLoop P ctx topic subscription (t :: rest) w =
          consumeLoop P ctx topic subscription rest
            (consumeBody P ctx topic subscription t w) := by
        simp [consumeLoop, selectDoneOrDefault, hd]
      have hatt : consumeAttempts (t :: rest) = t :: consumeAttempts rest := by
        simp [consumeAttempts, selectDoneOrDefault, hd]
      obtain ⟨i1, i2, i3, i4, i5⟩ := ih (consumeBody P ctx topic subscription t w)
      rw [hloop, hatt, i1, i2, i3, i4, i5]
      cases hr : t.received with
      | error e =>
        rw [receivedMessages_error t rest e hd hr, consumeBody_error P ctx topic subscription t w e hr]
        simp [World.log, hr]
      | ok msg =>
        obtain ⟨b1, b2, b3, b4, _⟩ := consumeBody_ok P ctx topic subscription t w msg hr
        rw [receivedMessages_ok t rest msg hd hr, b1, b2, b3, b4]
        simp [recordConsumeMetrics, hr]
/-- C6 (amended): for every run of the consume loop, the number of consume-count
observations (each an increment of 1 tagged with topic and subscription) equals the
number of messages received, each of which is passed to `Ack` exactly once; the value
`Ack` returns is not inspected. A pass whose receive call returns an error records no
consume observation, starts and ends no span, makes no `Ack` call, and the loop goes
on to the next pass of the schedule. -/
theorem consume_observations_match_received (P : TextMapPropagator) (ctx : Context)
    (topic subscription : String) (schedule : List ConsumeTurn) :
    (consumeMessages P ctx topic subscription schedule World.init).world.metrics.messagesConsumed.length =
        (receivedMessages schedule).length ∧
      (consumeMessages P ctx topic subscription schedule World.init).world.acks =
        (receivedMessages schedule).map (fun p => AckCall.mk p.2 p.1.ackErr) ∧
      (∀ o ∈ (consumeMessages P ctx topic subscription schedule World.init).world.metrics.messagesConsumed,
        o.value = 1 ∧
        o.attrs = [("topic", AttrValue.str topic), ("subscription", AttrValue.str subscription)]) ∧
      ∀ (t : ConsumeTurn) (rest : List ConsumeTurn) (w : World) (e : String),
        t.doneReady = false → t.received = Except.error e →
        consumeLoop P ctx topic subscription (t :: rest) w =
            consumeLoop P ctx topic subscription rest (consumeBody P ctx topic subscription t w) ∧
          (consumeBody P ctx topic subscription t w).metrics = w.metrics ∧
          (consumeBody P ctx topic subscription t w).started = w.started ∧
          (consumeBody P ctx topic subscription t w).ended = w.ended ∧
          (consumeBody P ctx topic subscription t w).acks = w.acks := by
  obtain ⟨h1, _, h3, _, _⟩ := consumeLoop_effect P ctx topic subscription schedule
    (World.init.log "info" "Starting consumer")
  have h1' : (consumeMessages P ctx topic subscription schedule World.init).world.metrics.messagesConsumed =
      (receivedMessages schedule).map (fun _ =>
        CounterObs.mk 1 [("topic", .str topic), ("subscription", .str subscription)]) := by
    rw [consumeMessages, h1]
    rfl
  refine ⟨?_, ?_, ?_, ?_⟩
  · rw [h1', List.length_map]
  · rw [consumeMessages, h3]
    rfl
  · intro o ho
    rw [h1'] at ho
    obtain ⟨p, _, rfl⟩ := List.mem_map.1 ho
    exact ⟨rfl, rfl⟩
  · intro t rest w e hd hr
    refine ⟨by simp [consumeLoop, selectDoneOrDefault, hd], ?_⟩
    rw [consumeBody_error P ctx topic subscription t w e hr]
    exact ⟨rfl, rfl, rfl, rfl⟩

/-- Instance of C6: a pass whose receive fails with `"timeout"`, followed by a pass
that delivers a message. -/
theorem consume_observations_match_received_witness :
    (ConsumeTurn.mk false 0 (Except.error "timeout") 1 2 none 0).doneReady = false ∧
    (ConsumeTurn.mk false 0 (Except.error "timeout") 1 2 none 0).received = Except.error "timeout" ∧
    (consumeBody hexPropagator Context.background "my-topic" "my-subscription"
      (ConsumeTurn.mk false 0 (Except.error "timeout") 1 2 none 0) World.init).metrics =
        World.init.metrics :=
  ⟨rfl, rfl,
    ((consume_observations_match_received hexPropagator Context.background "my-topic"
      "my-subscription" []).2.2.2 (ConsumeTurn.mk false 0 (Except.error "timeout") 1 2 none 0)
      [] World.init "timeout" rfl rfl).2.1⟩

/-- C6 as stated fails: a message is received and `Ack` returns an error, which the
loop discards; one consume observation is recorded although no message was
successfully acknowledged. -/
theorem consume_observation_recorded_when_ack_fails :
    ((consumeMessages hexPropagator Context.background "my-topic" "my-subscription"
        [⟨false, 0, .ok ⟨"hello", GoMap.nil, "1:0:0"⟩, 1, 2, some "consumer closed", 1000000⟩]
        World.init).world.metrics.messagesConsumed.length = 1) ∧
    ((consumeMessages hexPropagator Context.background "my-topic" "my-subscription"
        [⟨false, 0, .ok ⟨"hello", GoMap.nil, "1:0:0"⟩, 1, 2, some "consumer closed", 1000000⟩]
        World.init).world.acks.countP (fun a => a.err.isNone) = 0) := by
  decide
/-- C8: for every run of the consume loop, the process spans it starts are, in order,
those of the messages received, and the message id attached to each (the only
attribute `messaging.message.id` of the span) is the value of the `message_id` entry
of the message's property mapping when that entry is present and `"unknown"` when it
is absent; the nil mapping and the empty mapping have no such entry. Reading the entry
cannot fail. -/
theorem consume_span_message_id (P : TextMapPropagator) (ctx : Context)
    (topic subscription : String) (schedule : List ConsumeTurn) :
    List.Forall₂
        (fun (p : ConsumeTurn × Message) (sp : Span) =>
          ("messaging.message.id",
              AttrValue.str ((GoMap.lookup "message_id" p.2.properties).getD "unknown")) ∈
            sp.attributes ∧
          ∀ v, ("messaging.message.id", v) ∈ sp.attributes →
            v = AttrValue.str ((GoMap.lookup "message_id" p.2.properties).getD "unknown"))
        (receivedMessages schedule)
        (consumeMessages P ctx topic subscription schedule World.init).world.started ∧
      (GoMap.lookup "message_id" GoMap.nil).getD "unknown" = "unknown" ∧
      (GoMap.lookup "message_id" GoMap.make).getD "unknown" = "unknown" := by
  refine ⟨?_, rfl, rfl⟩
  obtain ⟨_, _, _, _, h5⟩ := consumeLoop_effect P ctx topic subscription schedule
    (World.init.log "info" "Starting consumer")
  have h5' : (consumeMessages P ctx topic subscription schedule World.init).world.started =
      (receivedMessages schedule).map (fun p => processSpan P ctx topic subscription p.1 p.2) := by
    rw [consumeMessages, h5]
    rfl
  rw [h5', List.forall₂_map_right_iff]
  apply List.forall₂_same.2
  intro p _
  cases hl : GoMap.lookup "message_id" p.2.properties <;>
    simp [processSpan, tracerStart, hl]

/-- C10: with the monotonic clock running forward between the start timestamp and the
measurement of every pass, every value recorded in the publish-latency histogram and
in the consume-latency histogram is the elapsed time of its publish attempt
(successful or failed) or of its consumed message, truncated to whole milliseconds,
and is not negative. -/
theorem recorded_latency_nonnegative (P : TextMapPropagator) (ctx : Context)
    (topic subscription : String) (produced : List ProduceTurn) (consumed : List ConsumeTurn)
    (hp : ∀ t ∈ produced, clockRunsForward t.startTime t.endTime)
    (hc : ∀ t ∈ consumed, clockRunsForward t.startTime t.endTime) :
    (∃ r, produceMessages P ctx topic produced World.init = some r ∧
      r.world.metrics.messagePublishLatency.map (fun o => o.value) =
        (produceAttempts produced).map (fun t => Int.tdiv (t.endTime - t.startTime) 1000000) ∧
      ∀ o ∈ r.world.metrics.messagePublishLatency, 0 ≤ o.value) ∧
    ((consumeMessages P ctx topic subscription consumed World.init).world.metrics.messageConsumeLatency.map
        (fun o => o.value) =
        (receivedMessages consumed).map
          (fun p => Int.tdiv (p.1.endTime - p.1.startTime) 1000000) ∧
      ∀ o ∈ (consumeMessages P ctx topic subscription consumed
          World.init).world.metrics.messageConsumeLatency, 0 ≤ o.value) := by
  have hattempts : ∀ (l : List ProduceTurn), ∀ t ∈ produceAttempts l, t ∈ l := by
    intro l
    induction l with
    | nil => intro t ht; simp [produceAttempts] at ht
    | cons a rest ih =>
      intro t ht
      cases hsel : selectDoneOrTick a.doneReady a.tickReady a.pick with
      | none =>
        simp only [produceAttempts, hsel] at ht
        exact List.mem_cons_of_mem _ (ih t ht)
      | some c =>
        cases c with
        | done => simp [produceAttempts, hsel] at ht
        | tick =>
          simp only [produceAttempts, hsel, List.mem_cons] at ht
          rcases ht with rfl | ht
          · exact List.mem_cons_self _ _
          · exact List.mem_cons_of_mem _ (ih t ht)
  have hreceived : ∀ (l : List ConsumeTurn), ∀ p ∈ receivedMessages l, p.1 ∈ l := by
    intro l
    induction l with
    | nil => intro p hp; simp [receivedMessages, consumeAttempts] at hp
    | cons a rest ih =>
      intro p hp
      cases hd : a.doneReady with
      | true => simp [receivedMessages_done a rest hd] at hp
      | false =>
        cases hr : a.received with
        | error e =>
          rw [receivedMessages_error a rest e hd hr] at hp
          exact List.mem_cons_of_mem _ (ih p hp)
        | ok msg =>
          rw [receivedMessages_ok a rest msg hd hr, List.mem_cons] at hp
          rcases hp with rfl | hp
          · exact List.mem_cons_self _ _
          · exact List.mem_cons_of_mem _ (ih p hp)
  constructor
  · obtain ⟨r, _, _, h1, h2, _, _, _, _⟩ := produceLoop_effect P ctx topic produced 0 World.init
    have hlat : r.world.metrics.messagePublishLatency =
        (produceAttempts produced).map (fun t =>
          HistogramObs.mk (durationMilliseconds (timeSince t.startTime t.endTime))
            [("topic", .str topic), ("success", .bool t.succeeded)]) := by
      rw [h2, recordAttempts_latency]
      rfl
    refine ⟨r, h1, ?_, ?_⟩
    · rw [hlat, List.map_map]
      apply List.map_congr_left
      intro t ht
      exact (durationMilliseconds_timeSince _ _ (hp t (hattempts _ t ht))).1
    · intro o ho
      rw [hlat] at ho
      obtain ⟨t, ht, rfl⟩ := List.mem_map.1 ho
      exact (durationMilliseconds_timeSince _ _ (hp t (hattempts _ t ht))).2
  · obtain ⟨_, h2, _, _, _⟩ := consumeLoop_effect P ctx topic subscription consumed
      (World.init.log "info" "Starting consumer")
    have hlat : (consumeMessages P ctx topic subscription consumed
        World.init).world.metrics.messageConsumeLatency =
        (receivedMessages consumed).map (fun p =>
          HistogramObs.mk (durationMilliseconds (timeSince p.1.startTime p.1.endTime))
            [("topic", .str topic), ("subscription", .str subscription)]) := by
      rw [consumeMessages, h2]
      rfl
    refine ⟨?_, ?_⟩
    · rw [hlat, List.map_map]
      apply List.map_congr_left
      intro p hpm
      exact (durationMilliseconds_timeSince _ _ (hc p.1 (hreceived _ p hpm))).1
    · intro o ho
      rw [hlat] at ho
      obtain ⟨p, hpm, rfl⟩ := List.mem_map.1 ho
      exact (durationMilliseconds_timeSince _ _ (hc p.1 (hreceived _ p hpm))).2
/-- Instance of C10: the two send attempts and the two received messages of the
small schedules. -/
theorem recorded_latency_nonnegative_witness :
    (∀ t ∈ demoProduced, clockRunsForward t.startTime t.endTime) ∧
    (∀ t ∈ demoConsumed, clockRunsForward t.startTime t.endTime) ∧
    (∃ r, produceMessages hexPropagator Context.background "my-topic" demoProduced World.init =
        some r ∧
      r.world.metrics.messagePublishLatency.map (fun o => o.value) =
        (produceAttempts demoProduced).map
          (fun t => Int.tdiv (t.endTime - t.startTime) 1000000) ∧
      ∀ o ∈ r.world.metrics.messagePublishLatency, 0 ≤ o.value) ∧
    ((consumeMessages hexPropagator Context.background "my-topic" "my-subscription" demoConsumed
        World.init).world.metrics.messageConsumeLatency.map (fun o => o.value) =
        (receivedMessages demoConsumed).map
          (fun p => Int.tdiv (p.1.endTime - p.1.startTime) 1000000) ∧
      ∀ o ∈ (consumeMessages hexPropagator Context.background "my-topic" "my-subscription"
          demoConsumed World.init).world.metrics.messageConsumeLatency, 0 ≤ o.value) :=
  have hp : ∀ t ∈ demoProduced, clockRunsForward t.startTime t.endTime := by
    intro t ht
    simp only [demoProduced, List.mem_cons, List.mem_singleton, List.not_mem_nil, or_false] at ht
    rcases ht with rfl | rfl <;> exact ⟨by decide, by decide, by decide⟩
  have hc : ∀ t ∈ demoConsumed, clockRunsForward t.startTime t.endTime := by
    intro t ht
    simp only [demoConsumed, List.mem_cons, List.mem_singleton, List.not_mem_nil, or_false] at ht
    rcases ht with rfl | rfl | rfl <;> exact ⟨by decide, by decide, by decide⟩
  ⟨hp, hc, recorded_latency_nonnegative hexPropagator Context.background "my-topic"
    "my-subscription" demoProduced demoConsumed hp hc⟩

/-- C9 (amended): at an inspection point of the consume loop at which the cancellation
signal has fired the loop returns without a new receive. At an inspection point of
the produce loop or of the sampler loop at which the signal has fired, the loop
returns without a new send or sample when no timer tick is pending or when `select`
picks the cancellation case. A loop that has returned leaves the state as it is,
whatever the rest of the schedule, and the body of a send attempt, once begun,
completes. -/
theorem cancellation_at_inspection_points :
    (∀ (P : TextMapPropagator) (ctx : Context) (topic subscription : String)
        (t : ConsumeTurn) (rest : List ConsumeTurn) (w : World),
        t.doneReady = true →
        consumeLoop P ctx topic subscription (t :: rest) w = ⟨w, true⟩) ∧
    (∀ (P : TextMapPropagator) (ctx : Context) (topic : String)
        (t : ProduceTurn) (rest : List ProduceTurn) (n : Nat) (w : World),
        t.doneReady = true → (t.tickReady = false ∨ t.pick = SelectCase.done) →
        produceLoop P ctx topic (t :: rest) n w = some ⟨w, true⟩) ∧
    (∀ (hostAttributes : Attrs) (t : SampleTurn) (rest : List SampleTurn) (w : World),
        t.doneReady = true → (t.tickReady = false ∨ t.pick = SelectCase.done) →
        collectLoop hostAttributes (t :: rest) w = ⟨w, true⟩) ∧
    (∀ (P : TextMapPropagator) (ctx : Context) (topic : String) (t : ProduceTurn) (n : Nat)
        (w : World), ∃ w', produceBody P ctx topic t n w = some (n + 1, w')) := by
  refine ⟨?_, ?_, ?_, ?_⟩
  · intro P ctx topic subscription t rest w hd
    simp [consumeLoop, selectDoneOrDefault, hd]
  · intro P ctx topic t rest n w hd h
    have hsel : selectDoneOrTick t.doneReady t.tickReady t.pick = some SelectCase.done := by
      rcases h with h | h
      · simp [selectDoneOrTick, hd, h]
      · cases ht : t.tickReady <;> simp [selectDoneOrTick, hd, h, ht]
    simp only [produceLoop, hsel]
  · intro hostAttributes t rest w hd h
    have hsel : selectDoneOrTick t.doneReady t.tickReady t.pick = some SelectCase.done := by
      rcases h with h | h
      · simp [selectDoneOrTick, hd, h]
      · cases ht : t.tickReady <;> simp [selectDoneOrTick, hd, h, ht]
    simp only [collectLoop, hsel]
  · intro P ctx topic t n w
    obtain ⟨w', _, _, hb, _⟩ := produceBody_effect P ctx topic t n w
    exact ⟨w', hb⟩

/-- Instance of C9: a cancelled pass of each loop, with no tick pending in the
produce loop and in the sampler loop. -/
theorem cancellation_at_inspection_points_witness :
    (ConsumeTurn.mk true 0 (Except.error "cancelled") 1 2 none 0).doneReady = true ∧
    (ProduceTurn.mk true false .tick 0 1 2 (.ok "1:0:0") 0).doneReady = true ∧
    ((ProduceTurn.mk true false .tick 0 1 2 (.ok "1:0:0") 0).tickReady = false ∨
      (ProduceTurn.mk true false .tick 0 1 2 (.ok "1:0:0") 0).pick = SelectCase.done) ∧
    consumeLoop hexPropagator Context.background "my-topic" "my-subscription"
      (ConsumeTurn.mk true 0 (Except.error "cancelled") 1 2 none 0 :: demoConsumed) World.init =
        ⟨World.init, true⟩ ∧
    produceLoop hexPropagator Context.background "my-topic"
      (ProduceTurn.mk true false .tick 0 1 2 (.ok "1:0:0") 0 :: demoProduced) 0 World.init =
        some ⟨World.init, true⟩ ∧
    collectLoop [("host.name", .str "host")]
      [SampleTurn.mk true true .done ⟨.ok [50], .ok (1, 2)⟩] World.init = ⟨World.init, true⟩ :=
  ⟨rfl, rfl, Or.inl rfl,
    cancellation_at_inspection_points.1 hexPropagator Context.background "my-topic"
      "my-subscription" _ demoConsumed World.init rfl,
    cancellation_at_inspection_points.2.1 hexPropagator Context.background "my-topic"
      _ demoProduced 0 World.init rfl (Or.inl rfl),
    cancellation_at_inspection_points.2.2.1 [("host.name", .str "host")]
      (SampleTurn.mk true true .done ⟨.ok [50], .ok (1, 2)⟩) [] World.init rfl (Or.inr rfl)⟩

/-- C9 as stated fails: at an inspection point of the produce loop at which the
cancellation signal has fired and a timer tick is pending, `select` may pick the
tick; the loop then issues a new send and has not returned. The same holds for a
sample of the sampler loop. -/
theorem send_issued_after_cancellation :
    (produceMessages hexPropagator Context.background "my-topic"
        [⟨true, true, .tick, 0, 1, 2, .ok "1:0:0", 1000000⟩] World.init).map
      (fun r => (r.world.sends.length, r.returned)) = some (1, false) ∧
    (collectSystemMetrics "host" ⟨.ok [50], .ok (1, 2)⟩
        [⟨true, true, .tick, ⟨.ok [25], .ok (1, 2)⟩⟩] World.init).world.cpuQueries.length = 2 := by
  decide
/-! ## Sampling cadence -/

theorem collectAndRecordMetrics_sampleCount (hostAttributes : Attrs) (q : HostQuery) (w : World) :
    (collectAndRecordMetrics hostAttributes q w).sampleCount = w.sampleCount + 1 := by
  obtain ⟨cpu, mem⟩ := q
  cases cpu with
  | error e =>
    cases mem <;> simp [collectAndRecordMetrics, World.sampleCount, World.log]
  | ok l =>
    by_cases hl : l.length > 0 <;> cases mem <;>
      simp [collectAndRecordMetrics, World.sampleCount, World.log, hl]

/-- The passes of a select at which the loop is found cancelled with no tick pending. -/
theorem samplerTurns_done (D now nextTick : Nat) (i : TimedSample) (rest : List TimedSample)
    (h1 : D ≤ now) (h2 : now < nextTick) :
    samplerTurns 15 D now nextTick false (i :: rest) = [SampleTurn.mk true false i.pick i.query] := by
  have hn : ¬ nextTick ≤ now := by omega
  simp [samplerTurns, tickerDeliver, hn, h1, selectDoneOrTick]

theorem samplerTurns_wait_done (D now nextTick : Nat) (i : TimedSample) (rest : List TimedSample)
    (h1 : now < D) (h2 : D < nextTick) :
    samplerTurns 15 D now nextTick false (i :: rest) = [SampleTurn.mk true false i.pick i.query] := by
  have hn : ¬ nextTick ≤ now := by omega
  have h3 : ¬ D ≤ now := by omega
  have h4 : min nextTick D = D := by omega
  have h5 : ¬ nextTick ≤ D := by omega
  simp [samplerTurns, tickerDeliver, hn, h3, h4, h5, selectDoneOrTick]

theorem samplerTurns_wait_tick (D now nextTick : Nat) (i : TimedSample) (rest : List TimedSample)
    (h1 : now < nextTick) (h2 : nextTick < D) :
    samplerTurns 15 D now nextTick false (i :: rest) =
      SampleTurn.mk false true i.pick i.query ::
        samplerTurns 15 D (nextTick + i.duration) (nextTick + 15) false rest := by
  have hn : ¬ nextTick ≤ now := by omega
  have h3 : ¬ D ≤ now := by omega
  have h4 : min nextTick D = nextTick := by omega
  have h5 : ¬ D ≤ nextTick := by omega
  simp [samplerTurns, tickerDeliver, hn, h3, h4, h5, selectDoneOrTick]

theorem samplerTurns_wait_both (D now : Nat) (i : TimedSample) (rest : List TimedSample)
    (h1 : now < D) :
    samplerTurns 15 D now D false (i :: rest) =
      match i.pick with
      | .tick => SampleTurn.mk true true i.pick i.query ::
          samplerTurns 15 D (D + i.duration) (D + 15) false rest
      | .done => [SampleTurn.mk true true i.pick i.query] := by
  have hn : ¬ D ≤ now := by omega
  cases hp : i.pick <;> simp [samplerTurns, tickerDeliver, hn, selectDoneOrTick, hp]
/-- On the timeline, with every sample shorter than the interval and the loop at its
`select` before the tick number `k + 1` is due, the loop returns after one more
sample for each later interval that elapses before the cancellation. -/
theorem collectLoop_timed_count (hostAttributes : Attrs) (D : Nat) (inputs : List TimedSample)
    (k now : Nat) (w : World)
    (hnow : now < 15 * (k + 1)) (hk : 15 * k ≤ D)
    (hd : ∀ t ∈ inputs, t.duration < 15)
    (hpick : D % 15 ≠ 0 ∨ ∀ t ∈ inputs, t.pick = SelectCase.tick)
    (hfuel : D / 15 + 1 ≤ k + inputs.length) :
    (collectLoop hostAttributes
        (samplerTurns 15 D now (15 * (k + 1)) false inputs) w).returned = true ∧
      (collectLoop hostAttributes
        (samplerTurns 15 D now (15 * (k + 1)) false inputs) w).world.sampleCount =
        w.sampleCount + (D / 15 - k) := by
  induction inputs generalizing k now w with
  | nil =>
    simp only [List.length_nil] at hfuel
    omega
  | cons i rest ih =>
    have hdi : i.duration < 15 := hd i (List.mem_cons_self _ _)
    have hdr : ∀ t ∈ rest, t.duration < 15 := fun t ht => hd t (List.mem_cons_of_mem _ ht)
    have hpr : D % 15 ≠ 0 ∨ ∀ t ∈ rest, t.pick = SelectCase.tick := by
      rcases hpick with h | h
      · exact Or.inl h
      · exact Or.inr (fun t ht => h t (List.mem_cons_of_mem _ ht))
    have hlen : (i :: rest).length = rest.length + 1 := rfl
    rw [hlen] at hfuel
    by_cases h1 : D ≤ now
    · rw [samplerTurns_done D now _ i rest h1 hnow]
      simp only [collectLoop, selectDoneOrTick]
      exact ⟨trivial, by omega⟩
    · by_cases h2 : D < 15 * (k + 1)
      · rw [samplerTurns_wait_done D now _ i rest (by omega) h2]
        simp only [collectLoop, selectDoneOrTick]
        exact ⟨trivial, by omega⟩
      · by_cases h3 : D = 15 * (k + 1)
        · have hpi : i.pick = SelectCase.tick := by
            rcases hpick with h | h
            · omega
            · exact h i (List.mem_cons_self _ _)
          have hturns := samplerTurns_wait_both D now i rest (by omega)
          rw [hpi] at hturns
          simp only at hturns
          rw [← h3, hturns]
          simp only [collectLoop, selectDoneOrTick]
          have hnext : D + 15 = 15 * (k + 1 + 1) := by omega
          rw [hnext]
          obtain ⟨r1, r2⟩ := ih (k + 1) (D + i.duration)
            (collectAndRecordMetrics hostAttributes i.query w) (by omega) (by omega) hdr hpr
            (by omega)
          refine ⟨r1, ?_⟩
          rw [r2, collectAndRecordMetrics_sampleCount]
          omega
        · rw [samplerTurns_wait_tick D now _ i rest hnow (by omega)]
          simp only [collectLoop, selectDoneOrTick]
          have hnext : 15 * (k + 1) + 15 = 15 * (k + 1 + 1) := by omega
          rw [hnext]
          obtain ⟨r1, r2⟩ := ih (k + 1) (15 * (k + 1) + i.duration)
            (collectAndRecordMetrics hostAttributes i.query w) (by omega) (by omega) hdr hpr
            (by omega)
          refine ⟨r1, ?_⟩
          rw [r2, collectAndRecordMetrics_sampleCount]
          omega

/-- C11 (amended): the sampler loop with its interval of 15 units is started at time 0
and cancelled at time `D`, every sample takes less than the interval, and either `D`
is not a multiple of 15 or `select` picks the tick whenever the tick and the
cancellation can both proceed. Then, on a schedule long enough for `D`, the loop
returns and `collectAndRecordMetrics` has been invoked `D / 15 + 1` times: once at
the start, before the first wait, and once for each elapsed interval. -/
theorem sampling_cadence (hostname : String) (D : Nat) (first : TimedSample)
    (inputs : List TimedSample)
    (hfirst : first.duration < 15)
    (hd : ∀ t ∈ inputs, t.duration < 15)
    (hpick : D % 15 ≠ 0 ∨ ∀ t ∈ inputs, t.pick = SelectCase.tick)
    (hfuel : D / 15 + 1 ≤ inputs.length) :
    (collectSystemMetricsTimed hostname D first inputs).returned = true ∧
      (collectSystemMetricsTimed hostname D first inputs).world.sampleCount = D / 15 + 1 := by
  obtain ⟨r1, r2⟩ := collectLoop_timed_count [("host.name", .str hostname)] D inputs 0
    first.duration
    (collectAndRecordMetrics [("host.name", .str hostname)] first.query
      (World.init.log "info" "Starting system metrics collection"))
    (by omega) (by omega) hd hpick (by omega)
  refine ⟨r1, ?_⟩
  have h := r2
  rw [collectAndRecordMetrics_sampleCount] at h
  have h0 : (World.init.log "info" "Starting system metrics collection").sampleCount = 0 := rfl
  rw [h0] at h
  simp only [collectSystemMetricsTimed, collectSystemMetrics]
  rw [h]
  omega
/-- Instance of C11: a run of 45 units, in which the cancellation and the third tick
come together and `select` picks the tick: four samples. -/
theorem sampling_cadence_witness :
    (TimedSample.mk .tick 3 ⟨.ok [50], .ok (1, 2)⟩).duration < 15 ∧
    (∀ t ∈ demoSamples, t.duration < 15) ∧
    (45 % 15 ≠ 0 ∨ ∀ t ∈ demoSamples, t.pick = SelectCase.tick) ∧
    45 / 15 + 1 ≤ demoSamples.length ∧
    (collectSystemMetricsTimed "host" 45 ⟨.tick, 3, ⟨.ok [50], .ok (1, 2)⟩⟩
      demoSamples).returned = true ∧
    (collectSystemMetricsTimed "host" 45 ⟨.tick, 3, ⟨.ok [50], .ok (1, 2)⟩⟩
      demoSamples).world.sampleCount = 45 / 15 + 1 :=
  have hd : ∀ t ∈ demoSamples, t.duration < 15 := by
    intro t ht
    simp only [demoSamples, List.mem_cons, List.mem_singleton, List.not_mem_nil, or_false] at ht
    rcases ht with rfl | rfl | rfl | rfl <;> decide
  have hp : ∀ t ∈ demoSamples, t.pick = SelectCase.tick := by
    intro t ht
    simp only [demoSamples, List.mem_cons, List.mem_singleton, List.not_mem_nil, or_false] at ht
    rcases ht with rfl | rfl | rfl | rfl <;> rfl
  have h := sampling_cadence "host" 45 ⟨.tick, 3, ⟨.ok [50], .ok (1, 2)⟩⟩ demoSamples
    (by decide) hd (Or.inr hp) (by decide)
  ⟨by decide, hd, Or.inr hp, by decide, h.1, h.2⟩

/-- C11 as stated fails at a run of 15 units: the first tick and the cancellation can
both proceed at time 15, and when `select` picks the cancellation the loop returns
after 1 sample, not `15 / 15 + 1 = 2`. It also fails when a sample outlasts the
interval: with a first sample of 31 units the tick of time 30 is dropped, and a run of
44 units ends after 2 samples, not `44 / 15 + 1 = 3`. -/
theorem sampling_cadence_fails_at_tie :
    ((collectSystemMetricsTimed "host" 15 ⟨.tick, 0, ⟨.ok [50], .ok (1, 2)⟩⟩
        [⟨.done, 0, ⟨.ok [50], .ok (1, 2)⟩⟩, ⟨.done, 0, ⟨.ok [50], .ok (1, 2)⟩⟩]).returned = true ∧
      (collectSystemMetricsTimed "host" 15 ⟨.tick, 0, ⟨.ok [50], .ok (1, 2)⟩⟩
        [⟨.done, 0, ⟨.ok [50], .ok (1, 2)⟩⟩, ⟨.done, 0, ⟨.ok [50], .ok (1, 2)⟩⟩]).world.sampleCount = 1 ∧
      15 / 15 + 1 = 2) ∧
    ((collectSystemMetricsTimed "host" 44 ⟨.tick, 31, ⟨.ok [50], .ok (1, 2)⟩⟩
        demoSamples).returned = true ∧
      (collectSystemMetricsTimed "host" 44 ⟨.tick, 31, ⟨.ok [50], .ok (1, 2)⟩⟩
        demoSamples).world.sampleCount = 2 ∧
      44 / 15 + 1 = 3) := by
  decide
/-! ## Shutdown order -/

/-- C12 (amended): in a run of `main` that starts up and receives the interrupt, the
teardown actions run in the reverse order of their `defer` statements: the consumer is
closed, then the producer, the connection count is lowered, the broker client is
closed, and only then the shared cancellation signal fires; after it the metrics
export pipeline and then the trace export pipeline are shut down and the logger is
synced. A failure to shut down an export pipeline is logged and the remaining
teardown actions still run. No teardown action happens before the interrupt. -/
theorem shutdown_order (env : MainEnv) (h : env.startsUp) :
    (main env).events =
      [MainEvent.goStarted "collectSystemMetrics",
        (if env.authToken ≠ "" then MainEvent.logged "info" "Using token authentication"
          else MainEvent.logged "info"
            "No authentication token provided, using anonymous access"),
        MainEvent.connectionChange 1,
        MainEvent.goStarted "produceMessages",
        MainEvent.goStarted "consumeMessages",
        MainEvent.logged "info" "Shutting down...",
        MainEvent.consumerClosed,
        MainEvent.producerClosed,
        MainEvent.connectionChange (-1),
        MainEvent.clientClosed,
        MainEvent.cancelFired,
        MainEvent.meterShutdown] ++
      (match env.meterShutdownErr with
        | some _ => [MainEvent.logged "error" "Error shutting down meter provider"]
        | none => []) ++
      [MainEvent.tracerShutdown] ++
      (match env.tracerShutdownErr with
        | some _ => [MainEvent.logged "error" "Error shutting down tracer provider"]
        | none => []) ++
      [MainEvent.loggerSynced] := by
  obtain ⟨h1, h2, h3, h4, h5, h6⟩ := h
  cases hm : env.meterShutdownErr <;> cases ht : env.tracerShutdownErr <;>
    by_cases ha : env.authToken = "" <;>
    simp [main, h1, h2, h3, h4, h5, h6, hm, ht, ha, runDefers, runDeferred, MainState.emit,
      MainState.defer]

/-- Instance of C12: a run that starts up, in which the metrics export pipeline fails
to shut down. -/
theorem shutdown_order_witness :
    demoMainEnv.startsUp ∧
    (main demoMainEnv).events =
      [MainEvent.goStarted "collectSystemMetrics",
        MainEvent.logged "info" "No authentication token provided, using anonymous access",
        MainEvent.connectionChange 1,
        MainEvent.goStarted "produceMessages",
        MainEvent.goStarted "consumeMessages",
        MainEvent.logged "info" "Shutting down...",
        MainEvent.consumerClosed,
        MainEvent.producerClosed,
        MainEvent.connectionChange (-1),
        MainEvent.clientClosed,
        MainEvent.cancelFired,
        MainEvent.meterShutdown,
        MainEvent.logged "error" "Error shutting down meter provider",
        MainEvent.tracerShutdown,
        MainEvent.loggerSynced] :=
  ⟨⟨rfl, rfl, rfl, rfl, rfl, rfl⟩, shutdown_order demoMainEnv ⟨rfl, rfl, rfl, rfl, rfl, rfl⟩⟩

/-- C12 as stated fails: in a run that starts up and receives the interrupt, the
consumer, the producer and the broker client are closed before the cancellation
signal fires, not after it. -/
theorem cancel_fires_after_closes :
    List.indexOf MainEvent.consumerClosed (main demoMainEnv).events = 6 ∧
    List.indexOf MainEvent.producerClosed (main demoMainEnv).events = 7 ∧
    List.indexOf MainEvent.clientClosed (main demoMainEnv).events = 9 ∧
    List.indexOf MainEvent.cancelFired (main demoMainEnv).events = 10 ∧
    ¬ (List.indexOf MainEvent.cancelFired (main demoMainEnv).events <
        List.indexOf MainEvent.consumerClosed (main demoMainEnv).events) := by
  decide

end PulsarOtel
